import Mathlib

/-!
Verification of the chunked-world / physics / combat core of `game31.py`
("Enhanced Blocky Adventure"), a single-file 2D side-scrolling game.

The development is a shallow embedding of the Python source:

* Python floats are modelled as rationals (`ℚ`).  Every concrete scenario
  treated below only involves dyadic rationals of small magnitude, on which
  IEEE-754 double arithmetic is exact, so the rational model agrees with the
  float semantics of the source on those scenarios.
* The chunk dictionary `World.grid` (a Python `dict` mapping chunk keys to
  lists) is modelled extensionally as a total function from keys to lists of
  blocks, with the empty list standing for an absent key.  This matches the
  source, which treats a missing key and an empty list identically
  (`if key in self.grid` guards every read).
* Fallible Python operations (statements that can raise `ValueError` or
  `KeyError`) are modelled in the `Except String` monad.
* Python's `//` floor division on integers is `Int.fdiv`; on floats it is
  `⌊·⌋` (`Int.floor`).  `%` on nonnegative integers is `Int.emod`.
* Python object identity (used by `list.remove`, `in`, and `!=` on `Block`
  objects, which do not define `__eq__`) is modelled by an `oid` field, so
  that structural equality of the Lean records coincides with identity as
  long as distinct objects get distinct `oid`s.
* `random.randint`/`random.choice`/`random.random` draws and the one call to
  `math.sqrt` (whose result is irrational in general, hence not a rational
  term) are passed in as explicit input parameters, per the spec's remark
  that implementers should inject the random source.
-/

namespace Game31

/-! ### Global constants (game31.py lines 14-22) -/

def TILE_SIZE : Int := 40

def CHUNK_SIZE : Int := 8

/-- `TILE_SIZE * CHUNK_SIZE = 320`, the pixel width of one chunk. -/
def CHUNK_PIX : Int := TILE_SIZE * CHUNK_SIZE

def GRAVITY : ℚ := 1/2

def WORLD_WIDTH : ℚ := 200 * 40

def SCREEN_HEIGHT : ℚ := 600

def PLAYER_SIZE : ℚ := 30

def JUMP_STRENGTH : ℚ := -20

/-! ### Blocks (class Block, lines 612-628) -/

/-- The block/item type strings occurring in the source. -/
inductive Kind where
  | grass | dirt | stone | bedrock | wood | iron | water | lava | coin
deriving DecidableEq, Repr

/-- A terrain block.  `oid` models Python object identity (see header);
positions are integer pixel coordinates (every block in the source is placed
at integer coordinates, multiples of `TILE_SIZE`). -/
structure Block where
  oid : Nat
  x : Int
  y : Int
  type : Kind
deriving DecidableEq, Repr

/-- Block.__init__ (lines 613-628): the health assigned to a block from its
type; `float('inf')` for bedrock is modelled as `⊤` in `WithTop ℚ`. -/
def blockHealth : Kind → WithTop ℚ
  | Kind.stone => (5 : ℚ)
  | Kind.dirt => (3 : ℚ)
  | Kind.wood => (4 : ℚ)
  | Kind.iron => (8 : ℚ)
  | Kind.bedrock => ⊤
  | _ => (1 : ℚ)

/-- A block's health.  The source assigns it once in `__init__` as a function
of the type and never mutates it afterwards (breaking tracks a separate
`break_progress` counter), so it is a derived field here. -/
def Block.health (b : Block) : WithTop ℚ := blockHealth b.type

/-! ### The world and its chunk grid (class World, lines 696-729) -/

/-- Chunk coordinate of an integer pixel coordinate:
`int(x // (TILE_SIZE * CHUNK_SIZE))` on a Python int is floor division. -/
def chunkOfI (n : Int) : Int := Int.fdiv n CHUNK_PIX

/-- Chunk coordinate of a float pixel coordinate:
`int(x // (TILE_SIZE * CHUNK_SIZE))` on a Python float; `//` floors, and
`int` of the already-floored value is exact. -/
def chunkOfQ (q : ℚ) : Int := ⌊q / (CHUNK_PIX : ℚ)⌋

/-- The world: the flat block list and the chunk grid (lines 697-702).
`generated_chunks`, `goal_flag` and `boss_arena_ceiling` play no role in the
operations verified here and are omitted. -/
structure World where
  blocks : List Block
  grid : Int × Int → List Block

def emptyWorld : World where
  blocks := []
  grid := fun _ => []

/-- World.add_block (lines 704-710). -/
def World.addBlock (w : World) (b : Block) : World :=
  let key := (chunkOfI b.x, chunkOfI b.y)
  { blocks := w.blocks ++ [b]
    grid := fun k => if k = key then w.grid k ++ [b] else w.grid k }

/-- World.remove_block (lines 712-717).  `self.blocks.remove(block)` raises
`ValueError` when the block is absent from the list; the grid update is
guarded by `block in self.grid[chunk]`, and `List.erase` of an absent element
is the identity, so that guard is implicit. -/
def World.removeBlock (w : World) (b : Block) : Except String World :=
  if b ∈ w.blocks then
    let key := (chunkOfI b.x, chunkOfI b.y)
    Except.ok
      { blocks := w.blocks.erase b
        grid := fun k => if k = key then (w.grid k).erase b else w.grid k }
  else Except.error "ValueError"

/-- The `range(-radius, radius + 1)` loop bounds of `get_nearby_blocks`. -/
def offsets (radius : Nat) : List Int :=
  (List.range (2 * radius + 1)).map (fun i : Nat => ((i : Int) - (radius : Int)))

/-- The chunk keys visited by `get_nearby_blocks`, in loop order
(`dx` outer, `dy` inner). -/
def nearbyKeys (cx cy : Int) (radius : Nat) : List (Int × Int) :=
  (offsets radius).flatMap (fun dx =>
    (offsets radius).map (fun dy => (cx + dx, cy + dy)))

/-- World.get_nearby_blocks (lines 719-729): concatenates the chunk lists of
the `(2·radius+1)²` chunks around the probe position. -/
def World.getNearbyBlocks (w : World) (x y : ℚ) (radius : Nat) : List Block :=
  (nearbyKeys (chunkOfQ x) (chunkOfQ y) radius).flatMap w.grid

/-! ### Chunk arithmetic lemmas -/

theorem chunkPix_eq : CHUNK_PIX = 320 := rfl

theorem chunkOfQ_intCast (n : Int) : chunkOfQ (n : ℚ) = chunkOfI n := by
  unfold chunkOfQ chunkOfI
  rw [chunkPix_eq]
  have h320 : ((320 : Int) : ℚ) = ((320 : Nat) : ℚ) := by norm_num
  rw [h320, Rat.floor_intCast_div_natCast, Int.fdiv_eq_ediv _ (by norm_num)]
  rfl

theorem offsets_nodup (radius : Nat) : (offsets radius).Nodup := by
  unfold offsets
  refine List.Nodup.map ?_ (List.nodup_range _)
  intro a b h
  dsimp at h
  omega

theorem mem_offsets {radius : Nat} {d : Int} :
    d ∈ offsets radius ↔ -(radius : Int) ≤ d ∧ d ≤ radius := by
  unfold offsets
  simp only [List.mem_map, List.mem_range]
  constructor
  · rintro ⟨i, hi, rfl⟩
    omega
  · rintro ⟨h1, h2⟩
    exact ⟨(d + radius).toNat, by omega, by omega⟩

theorem nearbyKeys_nodup (cx cy : Int) (radius : Nat) :
    (nearbyKeys cx cy radius).Nodup := by
  unfold nearbyKeys
  rw [List.nodup_flatMap]
  constructor
  · intro dx _
    refine List.Nodup.map ?_ (offsets_nodup radius)
    intro a b h
    have := congrArg Prod.snd h
    simpa using this
  · have hnd := offsets_nodup radius
    refine List.Pairwise.imp ?_ hnd
    intro dx dy hne
    intro p hp hq
    simp only [List.mem_map] at hp hq
    obtain ⟨a, _, ha⟩ := hp
    obtain ⟨b, _, hb⟩ := hq
    apply hne
    have := congrArg Prod.fst (ha.trans hb.symm)
    simpa using this

theorem center_mem_nearbyKeys (cx cy : Int) (radius : Nat) :
    (cx, cy) ∈ nearbyKeys cx cy radius := by
  unfold nearbyKeys
  rw [List.mem_flatMap]
  refine ⟨0, ?_, ?_⟩
  · rw [mem_offsets]; omega
  · rw [List.mem_map]
    exact ⟨0, by rw [mem_offsets]; omega, by simp⟩

theorem mem_nearbyKeys {cx cy : Int} {radius : Nat} {k : Int × Int} :
    k ∈ nearbyKeys cx cy radius ↔
      (∃ dx, -(radius : Int) ≤ dx ∧ dx ≤ radius ∧
        ∃ dy, -(radius : Int) ≤ dy ∧ dy ≤ radius ∧ k = (cx + dx, cy + dy)) := by
  unfold nearbyKeys
  simp only [List.mem_flatMap, List.mem_map, mem_offsets]
  constructor
  · rintro ⟨dx, ⟨h1, h2⟩, dy, ⟨h3, h4⟩, rfl⟩
    exact ⟨dx, h1, h2, dy, h3, h4, rfl⟩
  · rintro ⟨dx, h1, h2, dy, h3, h4, rfl⟩
    exact ⟨dx, ⟨h1, h2⟩, dy, ⟨h3, h4⟩, rfl⟩

theorem sum_indicator_eq_count {α : Type} [DecidableEq α] (key : α) :
    ∀ l : List α, (l.map (fun k => if k = key then 1 else 0)).sum = l.count key := by
  intro l
  induction l with
  | nil => simp
  | cons a t ih =>
      simp only [List.map_cons, List.sum_cons, List.count_cons, ih]
      by_cases h : a = key
      · simp [h, Nat.add_comm]
      · have h2 : ¬ key = a := fun hh => h hh.symm
        simp [h, h2]

/-! ### C1: removing an absent block -/

/-- C1: the claim states that `World.remove_block` on a block not present in
the world is a silent no-op that must not throw.  In fact the very first
statement, `self.blocks.remove(block)`, raises `ValueError` whenever the
block is absent from the block list (only the chunk-grid update is guarded),
so the call throws instead of no-opping. -/
theorem remove_absent_block_raises (w : World) (b : Block) (h : b ∉ w.blocks) :
    w.removeBlock b = Except.error "ValueError" := by
  unfold World.removeBlock
  simp [h]

/-- C1, witness: removing a block from the empty world raises `ValueError`. -/
theorem remove_absent_block_raises_witness :
    emptyWorld.removeBlock ⟨0, 0, 0, Kind.grass⟩ = Except.error "ValueError" :=
  remove_absent_block_raises emptyWorld ⟨0, 0, 0, Kind.grass⟩ (by simp [emptyWorld])

/-! ### C2: chunk membership -/

/-- C2: a block freshly added via `add_block` is returned exactly once by
`get_nearby_blocks` at the block's own coordinates for every radius (the
centre chunk is always scanned, and the block lands in exactly the chunk
computed from its position); and after a successful `remove_block` no query,
at any position and radius, returns it. -/
theorem chunk_membership (w : World) (b : Block)
    (hfresh : ∀ k, b ∉ w.grid k) :
    (∀ radius : Nat,
      ((w.addBlock b).getNearbyBlocks (b.x : ℚ) (b.y : ℚ) radius).count b = 1)
    ∧ (∀ w2, (w.addBlock b).removeBlock b = Except.ok w2 →
        ∀ (x y : ℚ) (radius : Nat), b ∉ w2.getNearbyBlocks x y radius) := by
  have hgrid : ∀ k, (w.addBlock b).grid k
      = if k = (chunkOfI b.x, chunkOfI b.y) then w.grid k ++ [b] else w.grid k := by
    intro k; rfl
  have hcnt : ∀ k, ((w.addBlock b).grid k).count b
      = if k = (chunkOfI b.x, chunkOfI b.y) then 1 else 0 := by
    intro k
    rw [hgrid k]
    by_cases hk : k = (chunkOfI b.x, chunkOfI b.y)
    · rw [if_pos hk, if_pos hk, List.count_append,
        List.count_eq_zero.mpr (hfresh k)]
      simp
    · rw [if_neg hk, if_neg hk]
      exact List.count_eq_zero.mpr (hfresh k)
  constructor
  · intro radius
    unfold World.getNearbyBlocks
    rw [List.count_flatMap]
    have hmapeq :
        List.map (List.count b ∘ (w.addBlock b).grid)
            (nearbyKeys (chunkOfQ (b.x : ℚ)) (chunkOfQ (b.y : ℚ)) radius)
          = List.map (fun k => if k = (chunkOfI b.x, chunkOfI b.y) then 1 else 0)
            (nearbyKeys (chunkOfQ (b.x : ℚ)) (chunkOfQ (b.y : ℚ)) radius) := by
      apply List.map_congr_left
      intro k _
      exact hcnt k
    rw [hmapeq, sum_indicator_eq_count]
    apply List.count_eq_one_of_mem (nearbyKeys_nodup _ _ _)
    rw [chunkOfQ_intCast, chunkOfQ_intCast]
    exact center_mem_nearbyKeys _ _ _
  · intro w2 hw2 x y radius
    have hmem : b ∈ (w.addBlock b).blocks := by
      unfold World.addBlock
      simp
    unfold World.removeBlock at hw2
    rw [if_pos hmem, Except.ok.injEq] at hw2
    subst hw2
    have hnone : ∀ k, b ∉
        (if k = (chunkOfI b.x, chunkOfI b.y)
          then ((w.addBlock b).grid k).erase b else (w.addBlock b).grid k) := by
      intro k
      by_cases hk : k = (chunkOfI b.x, chunkOfI b.y)
      · rw [if_pos hk, hgrid k, if_pos hk,
          List.erase_append_right _ (hfresh k), List.erase_cons_head]
        simp only [List.append_nil]
        exact hfresh k
      · rw [if_neg hk, hgrid k, if_neg hk]
        exact hfresh k
    intro hb
    unfold World.getNearbyBlocks at hb
    rw [List.mem_flatMap] at hb
    obtain ⟨k, _, hbk⟩ := hb
    exact hnone k hbk

/-- C2, witness: concrete instance for a grass block added to the empty
world, queried at radius 1, then removed. -/
theorem chunk_membership_witness :
    ((emptyWorld.addBlock ⟨7, 80, 120, Kind.grass⟩).getNearbyBlocks
        ((80 : Int) : ℚ) ((120 : Int) : ℚ) 1).count ⟨7, 80, 120, Kind.grass⟩ = 1 :=
  (chunk_membership emptyWorld ⟨7, 80, 120, Kind.grass⟩
    (fun _ => by simp [emptyWorld])).1 1

/-! ### Entities and physics (class Entity, lines 115-153) -/

/-- The mutable state of class Entity (lines 116-123). -/
@[ext]
structure Entity where
  x : ℚ
  y : ℚ
  width : ℚ
  height : ℚ
  vel_x : ℚ
  vel_y : ℚ
  on_ground : Bool
deriving DecidableEq, Repr

/-- Entity.check_collision (lines 149-153). -/
def checkCollision (e : Entity) (b : Block) : Bool :=
  decide (e.x + e.width > (b.x : ℚ) ∧ e.x < (b.x : ℚ) + (TILE_SIZE : ℚ)
    ∧ e.y + e.height > (b.y : ℚ) ∧ e.y < (b.y : ℚ) + (TILE_SIZE : ℚ))

/-- The body of the collision loop of Entity.update_physics (lines 133-147):
processing of a single nearby block against the current entity state. -/
def resolveBlock (e : Entity) (b : Block) : Entity :=
  if checkCollision e b then
    if e.vel_y > 0 ∧ e.y + e.height > (b.y : ℚ) ∧ e.y < (b.y : ℚ) then
      { e with y := (b.y : ℚ) - e.height, vel_y := 0, on_ground := true }
    else if e.vel_y < 0 ∧ e.y < (b.y : ℚ) + (TILE_SIZE : ℚ)
        ∧ e.y + e.height > (b.y : ℚ) + (TILE_SIZE : ℚ) then
      { e with y := (b.y : ℚ) + (TILE_SIZE : ℚ), vel_y := 0 }
    else if e.vel_x > 0 ∧ e.x + e.width > (b.x : ℚ) ∧ e.x < (b.x : ℚ) then
      { e with x := (b.x : ℚ) - e.width, vel_x := 0 }
    else if e.vel_x < 0 ∧ e.x < (b.x : ℚ) + (TILE_SIZE : ℚ)
        ∧ e.x + e.width > (b.x : ℚ) + (TILE_SIZE : ℚ) then
      { e with x := (b.x : ℚ) + (TILE_SIZE : ℚ), vel_x := 0 }
    else e
  else e

/-- Entity.update_physics (lines 125-147).  Note that the source ignores its
`blocks` argument and queries the global `world` via `get_nearby_blocks` at
the entity's freshly moved position; `w` here stands for that global world. -/
def updatePhysics (w : World) (e : Entity) : Entity :=
  let e1 : Entity := { e with vel_y := e.vel_y + GRAVITY }
  let e2 : Entity := { e1 with x := e1.x + e1.vel_x, y := e1.y + e1.vel_y,
                               on_ground := false }
  (w.getNearbyBlocks e2.x e2.y 3).foldl resolveBlock e2

/-! ### A world consisting of one infinite-width floor row

The resting-equilibrium property quantifies over an infinite-width row of
floor blocks.  `update_physics` reads terrain exclusively through the chunk
grid (its `blocks` argument is unused in the source), so the infinite row is
represented in the grid function: every chunk on the row's chunk line holds
its 8 floor tiles.  The finite `blocks` list cannot enumerate the row and is
left empty; it is never consulted by the physics code. -/

/-- The 8 floor tiles of chunk column `cx` at pixel height `fy`. -/
def rowChunk (cx fy : Int) : List Block :=
  (List.range 8).map
    (fun j : Nat => ⟨0, CHUNK_PIX * cx + TILE_SIZE * (j : Int), fy, Kind.stone⟩)

/-- A world whose terrain is a single infinite-width row of floor blocks at
pixel height `fy` (top edge of the floor). -/
def floorWorld (fy : Int) : World where
  blocks := []
  grid := fun k => if k.2 = chunkOfI fy then rowChunk k.1 fy else []

/-! ### Physics helper lemmas -/

theorem floor_div_int (q : ℚ) (n : Int) (hn : 0 < n) :
    ⌊q / (n : ℚ)⌋ = Int.fdiv ⌊q⌋ n := by
  have hnq : (0 : ℚ) < (n : ℚ) := by exact_mod_cast hn
  rw [Int.fdiv_eq_ediv _ (le_of_lt hn)]
  apply le_antisymm
  · rw [Int.le_ediv_iff_mul_le hn]
    apply Int.le_floor.mpr
    push_cast
    calc (⌊q / (n : ℚ)⌋ : ℚ) * n ≤ (q / n) * n := by
          apply mul_le_mul_of_nonneg_right (Int.floor_le _) (le_of_lt hnq)
      _ = q := by field_simp
  · apply Int.le_floor.mpr
    rw [le_div_iff₀ hnq]
    calc ((⌊q⌋ / n : Int) : ℚ) * n = ((⌊q⌋ / n * n : Int) : ℚ) := by push_cast; ring
      _ ≤ (⌊q⌋ : ℚ) := by exact_mod_cast Int.ediv_mul_le _ (ne_of_gt hn)
      _ ≤ q := Int.floor_le _

theorem chunkOfQ_floor (X : ℚ) : chunkOfQ X = Int.fdiv ⌊X⌋ CHUNK_PIX := by
  unfold chunkOfQ
  exact floor_div_int X CHUNK_PIX (by norm_num [CHUNK_PIX, TILE_SIZE, CHUNK_SIZE])

/-- Chunk coordinates factor through tile coordinates: 320 = 40 · 8. -/
theorem chunkOfQ_eq_fdiv_tile (X : ℚ) :
    chunkOfQ X = Int.fdiv ⌊X / (TILE_SIZE : ℚ)⌋ 8 := by
  unfold chunkOfQ
  have h1 : X / (CHUNK_PIX : ℚ) = (X / (TILE_SIZE : ℚ)) / ((8 : Int) : ℚ) := by
    rw [chunkPix_eq]
    show X / 320 = X / ((40 : Int) : ℚ) / 8
    norm_num
    ring
  rw [h1]
  exact floor_div_int _ 8 (by norm_num)

theorem foldl_resolve_id :
    ∀ (L : List Block) (e : Entity),
      (∀ b ∈ L, resolveBlock e b = e) → L.foldl resolveBlock e = e := by
  intro L
  induction L with
  | nil => intro e _; rfl
  | cons b t ih =>
      intro e h
      have hb := h b (List.mem_cons_self b t)
      simp only [List.foldl_cons, hb]
      exact ih e (fun b' hb' => h b' (List.mem_cons_of_mem b hb'))

theorem resolve_noop {e : Entity} {b : Block} (h : e.y + e.height ≤ (b.y : ℚ)) :
    resolveBlock e b = e := by
  have hc : checkCollision e b = false := by
    unfold checkCollision
    simp only [decide_eq_false_iff_not]
    intro hcon
    exact absurd hcon.2.2.1 (not_lt.mpr h)
  unfold resolveBlock
  simp [hc]

theorem resolve_row_snap {fy : Int} {e : Entity} {b : Block}
    (hby : b.y = fy) (hv : 0 < e.vel_y)
    (htop : e.y < (fy : ℚ)) (hbot : (fy : ℚ) < e.y + e.height)
    (ho1 : (b.x : ℚ) < e.x + e.width) (ho2 : e.x < (b.x : ℚ) + 40) :
    resolveBlock e b
      = { e with y := (fy : ℚ) - e.height, vel_y := 0, on_ground := true } := by
  have ht40 : ((TILE_SIZE : Int) : ℚ) = 40 := by norm_num [TILE_SIZE]
  have hby' : ((b.y : Int) : ℚ) = (fy : ℚ) := by exact_mod_cast hby
  have hc : checkCollision e b = true := by
    unfold checkCollision
    rw [decide_eq_true_eq]
    refine ⟨ho1, by rw [ht40]; exact ho2, by rw [hby']; exact hbot, ?_⟩
    rw [hby', ht40]
    linarith
  unfold resolveBlock
  rw [hc, if_pos rfl, if_pos ⟨hv, by rw [hby']; exact hbot, by rw [hby']; exact htop⟩,
    hby']

theorem resolve_row_skip {fy : Int} {e : Entity} {b : Block}
    (_hby : b.y = fy)
    (hno : ¬ ((b.x : ℚ) < e.x + e.width ∧ e.x < (b.x : ℚ) + 40)) :
    resolveBlock e b = e := by
  have ht40 : ((TILE_SIZE : Int) : ℚ) = 40 := by norm_num [TILE_SIZE]
  have hc : checkCollision e b = false := by
    unfold checkCollision
    simp only [decide_eq_false_iff_not]
    intro hcon
    exact hno ⟨hcon.1, by rw [← ht40]; exact hcon.2.1⟩
  unfold resolveBlock
  simp [hc]

theorem foldl_resolve_snap {fy : Int} :
    ∀ (L : List Block) (e : Entity),
      (∀ b ∈ L, b.y = fy) →
      0 < e.vel_y → e.y < (fy : ℚ) → (fy : ℚ) < e.y + e.height →
      (∃ b ∈ L, (b.x : ℚ) < e.x + e.width ∧ e.x < (b.x : ℚ) + 40) →
      L.foldl resolveBlock e
        = { e with y := (fy : ℚ) - e.height, vel_y := 0, on_ground := true } := by
  intro L
  induction L with
  | nil =>
      intro e _ _ _ _ hex
      obtain ⟨b, hb, _⟩ := hex
      exact absurd hb (List.not_mem_nil b)
  | cons b t ih =>
      intro e hrow hv htop hbot hex
      by_cases hover : (b.x : ℚ) < e.x + e.width ∧ e.x < (b.x : ℚ) + 40
      · rw [List.foldl_cons,
          resolve_row_snap (hrow b (List.mem_cons_self b t)) hv htop hbot
            hover.1 hover.2]
        apply foldl_resolve_id
        intro b' hb'
        apply resolve_noop
        show (fy : ℚ) - e.height + e.height ≤ ((b'.y : Int) : ℚ)
        rw [hrow b' (List.mem_cons_of_mem b hb')]
        ring_nf
        exact le_refl _
      · rw [List.foldl_cons, resolve_row_skip (hrow b (List.mem_cons_self b t)) hover]
        apply ih e (fun b' hb' => hrow b' (List.mem_cons_of_mem b hb')) hv htop hbot
        obtain ⟨b', hb', hov⟩ := hex
        rcases List.mem_cons.mp hb' with h | h
        · exact absurd (h ▸ hov) hover
        · exact ⟨b', h, hov⟩

theorem floorWorld_nearby_row {fy : Int} {X Y : ℚ} {b : Block}
    (hb : b ∈ (floorWorld fy).getNearbyBlocks X Y 3) : b.y = fy := by
  unfold World.getNearbyBlocks at hb
  rw [List.mem_flatMap] at hb
  obtain ⟨k, _, hbk⟩ := hb
  show b.y = fy
  by_cases hk : k.2 = chunkOfI fy
  · have : (floorWorld fy).grid k = rowChunk k.1 fy := by
      unfold floorWorld
      simp [hk]
    rw [this] at hbk
    unfold rowChunk at hbk
    rw [List.mem_map] at hbk
    obtain ⟨j, _, rfl⟩ := hbk
    rfl
  · have : (floorWorld fy).grid k = [] := by
      unfold floorWorld
      simp [hk]
    rw [this] at hbk
    exact absurd hbk (List.not_mem_nil b)

/-- The floor tile directly under horizontal position `X` is among the
nearby blocks, provided the floor's chunk row is within the radius-3 band of
the query's vertical chunk. -/
theorem blockAt_mem_nearby {fy : Int} {X Y : ℚ}
    (h1 : chunkOfI fy ≤ chunkOfQ Y + 3) (h2 : chunkOfQ Y ≤ chunkOfI fy + 3) :
    (⟨0, TILE_SIZE * ⌊X / (TILE_SIZE : ℚ)⌋, fy, Kind.stone⟩ : Block)
      ∈ (floorWorld fy).getNearbyBlocks X Y 3 := by
  unfold World.getNearbyBlocks
  rw [List.mem_flatMap]
  refine ⟨(chunkOfQ X, chunkOfI fy), ?_, ?_⟩
  · rw [mem_nearbyKeys]
    exact ⟨0, by norm_num, by norm_num,
      chunkOfI fy - chunkOfQ Y, by omega, by omega, by
        rw [Prod.mk.injEq]
        omega⟩
  · have hgrid : (floorWorld fy).grid (chunkOfQ X, chunkOfI fy)
        = rowChunk (chunkOfQ X) fy := by
      unfold floorWorld
      simp
    rw [hgrid]
    unfold rowChunk
    rw [List.mem_map]
    set m : Int := ⌊X / (TILE_SIZE : ℚ)⌋ with hm
    refine ⟨(Int.fmod m 8).toNat, ?_, ?_⟩
    · rw [List.mem_range]
      have hlt := @Int.fmod_lt_of_pos m 8 (by norm_num)
      have hnn := @Int.fmod_nonneg' m 8 (by norm_num)
      omega
    · have hnn := @Int.fmod_nonneg' m 8 (by norm_num)
      have hx : CHUNK_PIX * chunkOfQ X + TILE_SIZE * ((Int.fmod m 8).toNat : Int)
          = TILE_SIZE * m := by
        rw [chunkOfQ_eq_fdiv_tile X, ← hm]
        have hid := Int.fdiv_add_fmod m 8
        have ht : ((Int.fmod m 8).toNat : Int) = Int.fmod m 8 := Int.toNat_of_nonneg hnn
        rw [ht]
        show TILE_SIZE * CHUNK_SIZE * Int.fdiv m 8 + TILE_SIZE * Int.fmod m 8
          = TILE_SIZE * m
        have hcs : CHUNK_SIZE = 8 := rfl
        rw [hcs]
        linear_combination (TILE_SIZE : Int) * hid
      rw [hx]

/-- The entity after the integration phase of `update_physics`
(gravity, then both position increments, then `on_ground = False`). -/
def moved (e : Entity) : Entity :=
  ⟨e.x + e.vel_x, e.y + (e.vel_y + GRAVITY), e.width, e.height,
    e.vel_x, e.vel_y + GRAVITY, false⟩

theorem updatePhysics_eq (w : World) (e : Entity) :
    updatePhysics w e
      = (w.getNearbyBlocks (moved e).x (moved e).y 3).foldl resolveBlock (moved e) :=
  rfl

theorem gravity_eq : GRAVITY = 1/2 := rfl

/-- One physics step over the floor world when the moved entity is still
strictly above the floor: pure free fall, no collision fires. -/
theorem floor_step_fall (fy : Int) (e : Entity)
    (h : e.y + (e.vel_y + 1/2) + e.height ≤ (fy : ℚ)) :
    updatePhysics (floorWorld fy) e = moved e := by
  rw [updatePhysics_eq]
  apply foldl_resolve_id
  intro b hb
  apply resolve_noop
  have hrow := floorWorld_nearby_row hb
  rw [hrow]
  show e.y + (e.vel_y + GRAVITY) + e.height ≤ (fy : ℚ)
  rw [gravity_eq]
  exact h

/-- One physics step over the floor world when the moved entity's top is
above the floor's top edge but its bottom is below it: the downward branch
of the collision resolution snaps the entity onto the floor. -/
theorem floor_step_snap (fy : Int) (e : Entity)
    (hw : 0 < e.width)
    (hv : 0 < e.vel_y + 1/2)
    (h1 : e.y + (e.vel_y + 1/2) < (fy : ℚ))
    (h2 : (fy : ℚ) < e.y + (e.vel_y + 1/2) + e.height)
    (h3 : (fy : ℚ) - 640 ≤ e.y + (e.vel_y + 1/2)) :
    updatePhysics (floorWorld fy) e
      = ⟨e.x + e.vel_x, (fy : ℚ) - e.height, e.width, e.height, e.vel_x, 0, true⟩ := by
  rw [updatePhysics_eq]
  have hmy : (moved e).y = e.y + (e.vel_y + 1/2) := by
    show e.y + (e.vel_y + GRAVITY) = _
    rw [gravity_eq]
  have hcp : (0 : ℚ) < (CHUNK_PIX : ℚ) := by
    norm_num [CHUNK_PIX, TILE_SIZE, CHUNK_SIZE]
  have hcb1 : chunkOfQ (moved e).y ≤ chunkOfI fy := by
    rw [← chunkOfQ_intCast fy]
    unfold chunkOfQ
    apply Int.floor_le_floor
    apply div_le_div_of_nonneg_right ?_ (le_of_lt hcp)
    rw [hmy]
    linarith
  have hcb2 : chunkOfI fy - 2 ≤ chunkOfQ (moved e).y := by
    have hstep : ((fy : Int) : ℚ) / (CHUNK_PIX : ℚ) - ((2 : Int) : ℚ)
        ≤ (moved e).y / (CHUNK_PIX : ℚ) := by
      rw [hmy]
      rw [div_sub' _ _ _ (ne_of_gt hcp)]
      apply div_le_div_of_nonneg_right ?_ (le_of_lt hcp)
      have hcpq : ((CHUNK_PIX : Int) : ℚ) = 320 := by
        norm_num [CHUNK_PIX, TILE_SIZE, CHUNK_SIZE]
      rw [hcpq]
      push_cast
      linarith
    have hfl := Int.floor_le_floor hstep
    rw [Int.floor_sub_int] at hfl
    rw [← chunkOfQ_intCast fy]
    unfold chunkOfQ
    exact le_of_eq_of_le (by ring) hfl
  have hmem := @blockAt_mem_nearby fy (moved e).x (moved e).y
      (by omega) (by omega)
  apply foldl_resolve_snap
  · intro b hb
    exact floorWorld_nearby_row hb
  · show 0 < e.vel_y + GRAVITY
    rw [gravity_eq]; exact hv
  · rw [hmy]; exact h1
  · show (fy : ℚ) < (moved e).y + e.height
    rw [hmy]; exact h2
  · refine ⟨_, hmem, ?_, ?_⟩
    · show ((TILE_SIZE * ⌊(moved e).x / (TILE_SIZE : ℚ)⌋ : Int) : ℚ)
        < (moved e).x + e.width
      have h40 : ((TILE_SIZE : Int) : ℚ) = 40 := by norm_num [TILE_SIZE]
      have hle := Int.floor_le ((moved e).x / (TILE_SIZE : ℚ))
      push_cast
      rw [h40] at hle ⊢
      linarith [hle, hw]
    · show (moved e).x < ((TILE_SIZE * ⌊(moved e).x / (TILE_SIZE : ℚ)⌋ : Int) : ℚ) + 40
      have h40 : ((TILE_SIZE : Int) : ℚ) = 40 := by norm_num [TILE_SIZE]
      have hlt := Int.lt_floor_add_one ((moved e).x / (TILE_SIZE : ℚ))
      push_cast
      rw [h40] at hlt ⊢
      linarith [hlt]

/-! ### C3: resting equilibrium -/

set_option maxRecDepth 100000 in
/-- C3, counterexample: the claim quantifies over every entity, but an
entity of height 5 (less than the 5.5 pixels the first colliding frame
overshoots the floor top by) falls through the floor: on step 13 its top is
already below the floor's top edge, so the downward snap condition
`self.y < block.y` fails and no branch fires.  After 13 steps its bottom
edge is strictly below the floor's top edge and it is not grounded,
contradicting the claimed "bottom edge exactly coinciding with the floor's
top edge, never strictly below it". -/
theorem resting_equilibrium_counterexample :
    ((updatePhysics (floorWorld 0))^[13] ⟨0, -45, 30, 5, 0, 0, false⟩).y + 5 > 0
    ∧ ((updatePhysics (floorWorld 0))^[13] ⟨0, -45, 30, 5, 0, 0, false⟩).on_ground
        = false
    ∧ ((updatePhysics (floorWorld 0))^[13] ⟨0, -45, 30, 5, 0, 0, false⟩).vel_y ≠ 0 := by
  with_unfolding_all decide

/-- C3 (amended): for every entity of positive width and height strictly
between 5.5 and 640, with zero initial velocity, positioned with its bottom
edge exactly one tile (40 px) above an infinite-width row of floor blocks
with top edge at height `fy`: its bottom edge never goes strictly below the
floor top at any step, and from step 13 on it rests with its bottom edge
exactly on the floor top (`y = fy − height`), zero vertical velocity and
`on_ground = true`, and this state is preserved by every further step. -/
theorem resting_equilibrium (x w h : ℚ) (fy : Int)
    (hw : 0 < w) (hh1 : 11/2 < h) (hh2 : h ≤ 640) :
    (∀ n : Nat,
      ((updatePhysics (floorWorld fy))^[n]
          ⟨x, (fy : ℚ) - h - 40, w, h, 0, 0, false⟩).y + h ≤ (fy : ℚ))
    ∧ (∀ n : Nat, 13 ≤ n →
      (updatePhysics (floorWorld fy))^[n] ⟨x, (fy : ℚ) - h - 40, w, h, 0, 0, false⟩
        = ⟨x, (fy : ℚ) - h, w, h, 0, 0, true⟩) := by
  have hfree : ∀ n : Nat, n ≤ 12 →
      (updatePhysics (floorWorld fy))^[n] ⟨x, (fy : ℚ) - h - 40, w, h, 0, 0, false⟩
        = ⟨x, (fy : ℚ) - h - 40 + ((n : ℚ) * ((n : ℚ) + 1))/4, w, h, 0, (n : ℚ)/2,
            false⟩ := by
    intro n
    induction n with
    | zero =>
        intro _
        simp only [Function.iterate_zero_apply, Entity.mk.injEq]
        norm_num
    | succ k ih =>
        intro hk
        have hk12 : (k : ℚ) ≤ 11 := by exact_mod_cast Nat.le_of_succ_le_succ hk
        have hknn : (0 : ℚ) ≤ (k : ℚ) := by positivity
        rw [Function.iterate_succ_apply', ih (by omega), floor_step_fall]
        · unfold moved
          rw [gravity_eq]
          congr 1 <;> push_cast <;> ring
        · show (fy : ℚ) - h - 40 + ((k : ℚ) * ((k : ℚ) + 1))/4 + ((k : ℚ)/2 + 1/2) + h
            ≤ (fy : ℚ)
          nlinarith [hk12, hknn]
  have h13 : (updatePhysics (floorWorld fy))^[13]
        ⟨x, (fy : ℚ) - h - 40, w, h, 0, 0, false⟩
      = ⟨x, (fy : ℚ) - h, w, h, 0, 0, true⟩ := by
    have h12 := hfree 12 (le_refl _)
    rw [show (13 : Nat) = 12 + 1 from rfl, Function.iterate_succ_apply', h12,
      floor_step_snap]
    · simp only [Entity.mk.injEq]
      norm_num
    · exact hw
    · norm_num
    · show (fy : ℚ) - h - 40 + (((12 : Nat) : ℚ) * (((12 : Nat) : ℚ) + 1))/4
        + (((12 : Nat) : ℚ)/2 + 1/2) < (fy : ℚ)
      push_cast
      linarith
    · show (fy : ℚ) < (fy : ℚ) - h - 40 + (((12 : Nat) : ℚ) * (((12 : Nat) : ℚ) + 1))/4
        + (((12 : Nat) : ℚ)/2 + 1/2) + h
      push_cast
      linarith
    · show (fy : ℚ) - 640 ≤ (fy : ℚ) - h - 40
        + (((12 : Nat) : ℚ) * (((12 : Nat) : ℚ) + 1))/4 + (((12 : Nat) : ℚ)/2 + 1/2)
      push_cast
      linarith
  have hrest : ∀ m : Nat, (updatePhysics (floorWorld fy))^[13 + m]
        ⟨x, (fy : ℚ) - h - 40, w, h, 0, 0, false⟩
      = ⟨x, (fy : ℚ) - h, w, h, 0, 0, true⟩ := by
    intro m
    induction m with
    | zero => exact h13
    | succ k ih =>
        rw [show 13 + (k + 1) = (13 + k) + 1 from rfl, Function.iterate_succ_apply',
          ih, floor_step_snap]
        · simp only [Entity.mk.injEq]
          norm_num
        · exact hw
        · norm_num
        · show (fy : ℚ) - h + (0 + 1/2) < (fy : ℚ)
          linarith
        · show (fy : ℚ) < (fy : ℚ) - h + (0 + 1/2) + h
          linarith
        · show (fy : ℚ) - 640 ≤ (fy : ℚ) - h + (0 + 1/2)
          linarith
  constructor
  · intro n
    by_cases hn : n ≤ 12
    · rw [hfree n hn]
      have hnq : (n : ℚ) ≤ 12 := by exact_mod_cast hn
      have hnn : (0 : ℚ) ≤ (n : ℚ) := by positivity
      show (fy : ℚ) - h - 40 + ((n : ℚ) * ((n : ℚ) + 1))/4 + h ≤ (fy : ℚ)
      nlinarith [hnq, hnn]
    · obtain ⟨m, rfl⟩ : ∃ m, n = 13 + m := ⟨n - 13, by omega⟩
      rw [hrest m]
      show (fy : ℚ) - h + h ≤ (fy : ℚ)
      linarith
  · intro n hn
    obtain ⟨m, rfl⟩ : ∃ m, n = 13 + m := ⟨n - 13, by omega⟩
    exact hrest m

/-- C3 (amended), witness: a player-sized entity (30 × 45) dropped one tile
above the floor row at height 0 rests exactly on the floor after 14 steps. -/
theorem resting_equilibrium_witness :
    (updatePhysics (floorWorld 0))^[14] ⟨7, ((0 : Int) : ℚ) - 45 - 40, 30, 45, 0, 0, false⟩
      = ⟨7, ((0 : Int) : ℚ) - 45, 30, 45, 0, 0, true⟩ :=
  (resting_equilibrium 7 30 45 0 (by norm_num) (by norm_num) (by norm_num)).2
    14 (by norm_num)

/-! ### The player inventory (Player.__init__ line 161) and the break action
(main loop lines 1228-1263) -/

/-- A Python dict from type strings to counts, as an association list. -/
abbrev Inventory := List (Kind × Nat)

/-- `k in inventory`. -/
def invHasKey (inv : Inventory) (k : Kind) : Bool :=
  inv.any (fun p => p.1 == k)

/-- `inventory[k] += 1`: raises `KeyError` when `k` is not a key. -/
def invIncr (inv : Inventory) (k : Kind) : Except String Inventory :=
  if invHasKey inv k then
    Except.ok (inv.map (fun p => if p.1 = k then (p.1, p.2 + 1) else p))
  else Except.error "KeyError"

/-- `{"grass": 20, "dirt": 20, "stone": 10, "wood": 5, "coin": 0, "iron": 0}`. -/
def initialInventory : Inventory :=
  [(Kind.grass, 20), (Kind.dirt, 20), (Kind.stone, 10), (Kind.wood, 5),
    (Kind.coin, 0), (Kind.iron, 0)]

/-- Lines 1234-1239: the first nearby block whose tile contains the probe
position (mouse position in world coordinates). -/
def findClickedBlock (w : World) (wx wy : ℚ) : Option Block :=
  (w.getNearbyBlocks wx wy 3).find? (fun b =>
    decide (wx ≥ (b.x : ℚ) ∧ wx ≤ (b.x : ℚ) + (TILE_SIZE : ℚ)
      ∧ wy ≥ (b.y : ℚ) ∧ wy ≤ (b.y : ℚ) + (TILE_SIZE : ℚ)))

/-- The block-breaking accumulator carried across frames
(`break_progress`, `current_breaking_block`). -/
structure BreakSt where
  progress : ℚ
  current : Option Block
deriving DecidableEq, Repr

/-- Output state of one frame of held-down breaking. -/
structure BreakFrameOut where
  world : World
  inv : Inventory
  progress : ℚ
  current : Option Block

/-- One frame of the block-breaking branch (lines 1229-1263) while the left
mouse button is held at world position `(wx, wy)`:
find the clicked block; bedrock (and no block) leaves everything unchanged;
otherwise progress accrues by 0.5 per frame (reset on switching target), and
on reaching the block's health the block is removed from the world
(`ValueError` possible) and its type's inventory counter is incremented
(`KeyError` possible). -/
def breakFrame (w : World) (inv : Inventory) (st : BreakSt) (wx wy : ℚ) :
    Except String BreakFrameOut :=
  match findClickedBlock w wx wy with
  | none => Except.ok ⟨w, inv, st.progress, st.current⟩
  | some cb =>
    if cb.type = Kind.bedrock then Except.ok ⟨w, inv, st.progress, st.current⟩
    else
      let prog0 : ℚ := if st.current = some cb then st.progress else 0
      let prog : ℚ := prog0 + 1/2
      if Block.health cb ≤ (prog : WithTop ℚ) then
        match w.removeBlock cb with
        | Except.error s => Except.error s
        | Except.ok w2 =>
          match invIncr inv cb.type with
          | Except.error s => Except.error s
          | Except.ok inv2 => Except.ok ⟨w2, inv2, 0, none⟩
      else Except.ok ⟨w, inv, prog, some cb⟩

/-- `n` consecutive frames of held-down breaking at a fixed probe position. -/
def breakIter (w : World) (inv : Inventory) (st : BreakSt) (wx wy : ℚ) :
    Nat → Except String BreakFrameOut
  | 0 => Except.ok ⟨w, inv, st.progress, st.current⟩
  | n + 1 =>
    match breakIter w inv st wx wy n with
    | Except.ok o => breakFrame o.world o.inv ⟨o.progress, o.current⟩ wx wy
    | Except.error s => Except.error s

/-! ### C4: bedrock is immutable -/

/-- C4: when the block under the probe is bedrock, any number of break
frames leaves the world (hence the bedrock block's membership), the
inventory and the break accumulator completely unchanged and raises nothing;
and the block's health is `⊤` (`float('inf')`), never zero. -/
theorem bedrock_immutable (w : World) (inv : Inventory) (st : BreakSt)
    (wx wy : ℚ) (b : Block)
    (hfind : findClickedBlock w wx wy = some b) (hb : b.type = Kind.bedrock) :
    (∀ n : Nat, breakIter w inv st wx wy n
        = Except.ok ⟨w, inv, st.progress, st.current⟩)
    ∧ Block.health b = ⊤ ∧ Block.health b ≠ 0 := by
  have hstep : ∀ (inv' : Inventory) (st' : BreakSt),
      breakFrame w inv' st' wx wy
        = Except.ok ⟨w, inv', st'.progress, st'.current⟩ := by
    intro inv' st'
    unfold breakFrame
    rw [hfind]
    simp [hb]
  refine ⟨?_, ?_, ?_⟩
  · intro n
    induction n with
    | zero => rfl
    | succ k ih =>
        show (match breakIter w inv st wx wy k with
          | Except.ok o => breakFrame o.world o.inv ⟨o.progress, o.current⟩ wx wy
          | Except.error s => Except.error s) = _
        rw [ih]
        exact hstep inv ⟨st.progress, st.current⟩
  · rw [Block.health, hb]
    rfl
  · rw [Block.health, hb]
    show (⊤ : WithTop ℚ) ≠ 0
    simp

/-- C4, witness: three break frames against a bedrock block. -/
theorem bedrock_immutable_witness :
    breakIter (emptyWorld.addBlock ⟨1, 0, 0, Kind.bedrock⟩) initialInventory
        ⟨0, none⟩ 5 5 3
      = Except.ok ⟨emptyWorld.addBlock ⟨1, 0, 0, Kind.bedrock⟩, initialInventory,
          0, none⟩ :=
  (bedrock_immutable (emptyWorld.addBlock ⟨1, 0, 0, Kind.bedrock⟩)
    initialInventory ⟨0, none⟩ 5 5 ⟨1, 0, 0, Kind.bedrock⟩
    (by with_unfolding_all decide) rfl).1 3

/-! ### C9: breaking a water block raises KeyError -/

/-- C9: the break action completes without error when the broken block's
type has an inventory key; but the clicked block can be a water block (water
pools are generated on the surface in `generate_level_1`, water has finite
health 1 and is not bedrock), and completing its break executes
`player.inventory["water"] += 1`, which raises `KeyError` — with a break
accumulator of 0.5 already on the block, the next frame reaches health and
errors instead of completing. -/
theorem break_water_keyerror (w : World) (wx wy : ℚ) (st : BreakSt)
    (inv : Inventory) (b : Block)
    (hfind : findClickedBlock w wx wy = some b) (hmem : b ∈ w.blocks) :
    (b.type = Kind.water → st.current = some b → st.progress = 1/2 →
      breakFrame w initialInventory st wx wy = Except.error "KeyError")
    ∧ (b.type ≠ Kind.bedrock → invHasKey inv b.type = true →
      (breakFrame w inv st wx wy).isOk = true) := by
  constructor
  · intro ht hcur hprog
    unfold breakFrame
    rw [hfind]
    dsimp only
    rw [if_neg (by rw [ht]; exact fun h => Kind.noConfusion h)]
    rw [if_pos hcur, hprog]
    rw [if_pos (by
      rw [Block.health, ht]
      show ((1 : ℚ) : WithTop ℚ) ≤ ((1/2 + 1/2 : ℚ) : WithTop ℚ)
      rw [WithTop.coe_le_coe]
      norm_num)]
    unfold World.removeBlock
    rw [if_pos hmem]
    have hki : invIncr initialInventory Kind.water = Except.error "KeyError" := rfl
    rw [ht, hki]
  · intro hbed hkey
    unfold breakFrame
    rw [hfind]
    dsimp only
    rw [if_neg hbed]
    by_cases hge : Block.health b ≤ (((if st.current = some b then st.progress else 0)
        + 1/2 : ℚ) : WithTop ℚ)
    · rw [if_pos hge]
      unfold World.removeBlock
      rw [if_pos hmem]
      unfold invIncr
      rw [if_pos hkey]
      rfl
    · rw [if_neg hge]
      rfl

/-- C9, witness: a generated-like water block at the probe position; with
the standard starting inventory the completing frame raises `KeyError`,
while with an inventory that has a "water" key the same frame completes. -/
theorem break_water_keyerror_witness :
    breakFrame (emptyWorld.addBlock ⟨2, 0, 0, Kind.water⟩) initialInventory
        ⟨1/2, some ⟨2, 0, 0, Kind.water⟩⟩ 5 5 = Except.error "KeyError"
    ∧ (breakFrame (emptyWorld.addBlock ⟨2, 0, 0, Kind.water⟩)
        [(Kind.water, 3)] ⟨1/2, some ⟨2, 0, 0, Kind.water⟩⟩ 5 5).isOk = true :=
  ⟨(break_water_keyerror (emptyWorld.addBlock ⟨2, 0, 0, Kind.water⟩) 5 5
      ⟨1/2, some ⟨2, 0, 0, Kind.water⟩⟩ initialInventory ⟨2, 0, 0, Kind.water⟩
      (by with_unfolding_all decide) (by simp [World.addBlock, emptyWorld])).1
      rfl rfl rfl,
   (break_water_keyerror (emptyWorld.addBlock ⟨2, 0, 0, Kind.water⟩) 5 5
      ⟨1/2, some ⟨2, 0, 0, Kind.water⟩⟩ [(Kind.water, 3)] ⟨2, 0, 0, Kind.water⟩
      (by with_unfolding_all decide) (by simp [World.addBlock, emptyWorld])).2
      (fun h => Kind.noConfusion h) rfl⟩

/-! ### Enemies (class Enemy, lines 303-418) and projectiles (lines 510-529) -/

inductive EnemyType where
  | zombie | slime | ice_golem | boss
deriving DecidableEq, Repr

inductive Pattern where
  | jump | projectile | charge
deriving DecidableEq, Repr

inductive ProjType where
  | ice | fire | boss_fire
deriving DecidableEq, Repr

/-- Enemy state (Enemy.__init__, lines 304-326); the presentation-only
`animation_frame` counter is omitted. -/
@[ext]
structure Enemy where
  ent : Entity
  type : EnemyType
  health : ℚ
  max_health : ℚ
  speed : ℚ
  damage : ℚ
  direction : Int
  idle_timer : Int
  attack_cooldown : Int
  activated : Bool
  current_pattern : Option Pattern
  pattern_timer : Int
deriving DecidableEq, Repr

/-- Enemy.__init__ (lines 304-326); `it0` stands for the
`random.randint(0, 100)` initial idle timer. -/
def mkEnemy (x y : ℚ) (t : EnemyType) (it0 : Int) : Enemy where
  ent := ⟨x, y,
    if t = EnemyType.boss then PLAYER_SIZE * 6 else PLAYER_SIZE,
    if t = EnemyType.boss then PLAYER_SIZE * 7 else PLAYER_SIZE * (3/2),
    0, 0, false⟩
  type := t
  health := if t = EnemyType.zombie then 30 else if t = EnemyType.slime then 20
    else if t = EnemyType.ice_golem then 40 else 200
  max_health := if t = EnemyType.zombie then 30 else if t = EnemyType.slime then 20
    else if t = EnemyType.ice_golem then 40 else 200
  speed := if t = EnemyType.zombie then 1 else if t = EnemyType.slime then 3/2
    else if t = EnemyType.ice_golem then 7/10 else 4/5
  damage := if t = EnemyType.zombie then 10 else if t = EnemyType.slime then 5
    else if t = EnemyType.ice_golem then 15 else 25
  direction := 1
  idle_timer := it0
  attack_cooldown := 0
  activated := false
  current_pattern := none
  pattern_timer := 0

/-- Projectile state (Projectile.__init__, lines 511-519); the cosmetic
`glow` counter is omitted. -/
@[ext]
structure Projectile where
  x : ℚ
  y : ℚ
  vel_x : ℚ
  vel_y : ℚ
  type : ProjType
  lifetime : Int
  size : ℚ
deriving DecidableEq, Repr

/-- Projectile.update (lines 521-529): advance by velocity, decrement
lifetime (the caller drops the projectile when the result is ≤ 0). -/
def projUpdate (p : Projectile) : Projectile :=
  { p with x := p.x + p.vel_x, y := p.y + p.vel_y, lifetime := p.lifetime - 1 }

/-- The random draws and the `math.sqrt` value consumed by one enemy update:
`pat` is `random.choice(self.attack_patterns)`, `flip` is
`random.random() < 0.01`, and `dist` is the value of
`math.sqrt(dx*dx + dy*dy)` in the boss's projectile aim (irrational in
general, hence an input of the embedding). -/
structure EnemyRand where
  pat : Pattern
  flip : Bool
  dist : ℚ
deriving DecidableEq, Repr

/-- Lines 331-339: the dormant-to-activated transition check (the camera
shake and roar sound are presentation-only side effects). -/
def bossActivate (e : Enemy) (px : ℚ) : Enemy :=
  if e.activated = false ∧ |px - e.ent.x| < 400 then { e with activated := true }
  else e

/-- Lines 343-347: new attack pattern selection when the cooldown is
exhausted; `pat` is the `random.choice` draw. -/
def bossSelect (e : Enemy) (pat : Pattern) : Enemy :=
  if e.attack_cooldown ≤ 0 then
    { e with current_pattern := some pat, pattern_timer := 120,
             attack_cooldown := 60 }
  else e

/-- Line 349: `self.pattern_timer -= 1`, after the selection check. -/
def bossTick (e : Enemy) (pat : Pattern) : Enemy :=
  { bossSelect e pat with pattern_timer := (bossSelect e pat).pattern_timer - 1 }

/-- Lines 356-366: the aimed boss projectile; `s` stands for the
`math.sqrt(dx*dx + dy*dy)` value (see `EnemyRand.dist`). -/
def bossShot (e : Enemy) (px py s : ℚ) : Projectile :=
  ⟨e.ent.x + ((⌊e.ent.width / 2⌋ : Int) : ℚ),
   e.ent.y + ((⌊e.ent.height / 2⌋ : Int) : ℚ),
   (px - e.ent.x) / max 1 s * 6, (py - e.ent.y) / max 1 s * 6,
   ProjType.boss_fire, 60, 10⟩

/-- Lines 351-375: execution of the current pattern (after the timer
decrement). -/
def bossPattern (e : Enemy) (px py : ℚ) (r : EnemyRand) :
    Enemy × List Projectile :=
  match e.current_pattern with
  | some Pattern.jump =>
    if e.ent.on_ground = true ∧ e.pattern_timer = 100 then
      ({ e with ent := { e.ent with vel_y := -20 } }, [])
    else (e, [])
  | some Pattern.projectile =>
    if Int.emod e.pattern_timer 30 = 0 then (e, [bossShot e px py r.dist])
    else (e, [])
  | some Pattern.charge =>
    if e.pattern_timer > 60 then
      ({ e with ent := { e.ent with vel_x := if px < e.ent.x then -5 else 5 } },
        [])
    else ({ e with ent := { e.ent with vel_x := 0 } }, [])
  | none => (e, [])

/-- Line 377: `self.attack_cooldown -= 1` at the end of the activated
branch. -/
def bossCooldownTick (s : Enemy × List Projectile) : Enemy × List Projectile :=
  ({ s.1 with attack_cooldown := s.1.attack_cooldown - 1 }, s.2)

/-- The boss branch of Enemy.update (lines 330-377), before the physics
call: activation check, then (if activated) selection, timer tick, pattern
execution and cooldown tick. -/
def bossBehavior (e : Enemy) (px py : ℚ) (r : EnemyRand) :
    Enemy × List Projectile :=
  if (bossActivate e px).activated = true then
    bossCooldownTick (bossPattern (bossTick (bossActivate e px) r.pat) px py r)
  else (bossActivate e px, [])

/-- `self.vel_x = self.direction * self.speed` (lines 388, 392, 407). -/
def velFromDirection (e : Enemy) : Enemy :=
  { e with ent := { e.ent with vel_x := (e.direction : ℚ) * e.speed } }

/-- `self.vel_x = self.direction * self.speed * 0.5` (line 402). -/
def golemVel (e : Enemy) : Enemy :=
  { e with ent := { e.ent with vel_x := (e.direction : ℚ) * e.speed * (1/2) } }

/-- Lines 396-400: the ice projectile, fired horizontally from the golem's
centre in its current direction. -/
def golemShot (e : Enemy) : Projectile :=
  ⟨e.ent.x + ((⌊e.ent.width / 2⌋ : Int) : ℚ),
   e.ent.y + ((⌊e.ent.height / 2⌋ : Int) : ℚ),
   (e.direction : ℚ) * 5, 0, ProjType.ice, 60, 10⟩

/-- Lines 386-402: class-specific engaged behavior, with `direction`
already pointed toward the player by the caller. -/
def engageStep (e : Enemy) (px : ℚ) : Enemy × List Projectile :=
  match e.type with
  | EnemyType.zombie => (velFromDirection e, [])
  | EnemyType.slime =>
    (velFromDirection
      (if e.ent.on_ground = true ∧ |e.ent.x - px| < 100 then
        { e with ent := { e.ent with vel_y := -10 } }
      else e), [])
  | EnemyType.ice_golem =>
    if e.idle_timer ≤ 0 ∧ |e.ent.x - px| < 200 then
      (golemVel { e with idle_timer := 120 }, [golemShot e])
    else (golemVel e, [])
  | EnemyType.boss => (e, [])

/-- Lines 404-407: random wandering; `flip` is `random.random() < 0.01`. -/
def wanderStep (e : Enemy) (flip : Bool) : Enemy :=
  velFromDirection (if flip then { e with direction := -e.direction } else e)

/-- Lines 409-410: the ice golem's cooldown timer ticks down every frame. -/
def golemIdleTick (s : Enemy × List Projectile) : Enemy × List Projectile :=
  (if s.1.type = EnemyType.ice_golem
    then { s.1 with idle_timer := s.1.idle_timer - 1 } else s.1, s.2)

/-- The ordinary-enemy branch of Enemy.update (lines 378-410), before the
physics call. -/
def normalBehavior (e : Enemy) (px _py : ℚ) (r : EnemyRand) :
    Enemy × List Projectile :=
  golemIdleTick
    (if |e.ent.x - px| < 300 then
      engageStep { e with direction := if px < e.ent.x then -1 else 1 } px
    else (wanderStep e r.flip, []))

/-- Line 412: the shared physics step applied after the behavior branch. -/
def physicsStage (w : World) (s : Enemy × List Projectile) :
    Enemy × List Projectile :=
  ({ s.1 with ent := updatePhysics w s.1.ent }, s.2)

/-- Enemy.update (lines 328-418): behavior branch by class, then the shared
physics step.  Returns the updated enemy and the projectiles appended to
the global list this frame.  (The presentation-only animation counter,
lines 414-418, is omitted.) -/
def enemyUpdate (w : World) (e : Enemy) (px py : ℚ) (r : EnemyRand) :
    Enemy × List Projectile :=
  physicsStage w (if e.type = EnemyType.boss then bossBehavior e px py r
    else normalBehavior e px py r)

theorem flatMap_const_nil {α β : Type} :
    ∀ l : List α, (l.flatMap (fun _ => ([] : List β))) = []
  | [] => rfl
  | _ :: t => by
      rw [List.flatMap_cons, flatMap_const_nil t]
      rfl

theorem emptyWorld_nearby (x y : ℚ) (r : Nat) :
    emptyWorld.getNearbyBlocks x y r = [] :=
  flatMap_const_nil _

/-- In a world with no blocks the physics step is pure integration. -/
theorem emptyWorld_step (e : Entity) : updatePhysics emptyWorld e = moved e := by
  rw [updatePhysics_eq, emptyWorld_nearby]
  rfl

/-! ### C5: boss activation is one-way -/

theorem bossActivate_of_activated {e : Enemy} (px : ℚ) (h : e.activated = true) :
    bossActivate e px = e := by
  unfold bossActivate
  rw [if_neg]
  rintro ⟨h1, -⟩
  rw [h] at h1
  exact Bool.noConfusion h1

theorem bossSelect_activated (e : Enemy) (pat : Pattern) :
    (bossSelect e pat).activated = e.activated := by
  unfold bossSelect
  split <;> rfl

theorem bossTick_activated (e : Enemy) (pat : Pattern) :
    (bossTick e pat).activated = e.activated := by
  unfold bossTick
  show (bossSelect e pat).activated = e.activated
  exact bossSelect_activated e pat

theorem bossPattern_activated (e : Enemy) (px py : ℚ) (r : EnemyRand) :
    ((bossPattern e px py r).1).activated = e.activated := by
  unfold bossPattern
  repeat' split
  all_goals rfl

theorem bossBehavior_activated (e : Enemy) (px py : ℚ) (r : EnemyRand)
    (h : e.activated = true) : (bossBehavior e px py r).1.activated = true := by
  unfold bossBehavior
  rw [bossActivate_of_activated px h, if_pos h]
  show ((bossPattern (bossTick e r.pat) px py r).1).activated = true
  rw [bossPattern_activated, bossTick_activated]
  exact h

theorem engageStep_activated (e : Enemy) (px : ℚ) :
    ((engageStep e px).1).activated = e.activated := by
  unfold engageStep
  repeat' split
  all_goals rfl

theorem wanderStep_activated (e : Enemy) (flip : Bool) :
    (wanderStep e flip).activated = e.activated := by
  unfold wanderStep velFromDirection
  split <;> rfl

theorem golemIdleTick_activated (s : Enemy × List Projectile) :
    ((golemIdleTick s).1).activated = s.1.activated := by
  unfold golemIdleTick
  split <;> rfl

theorem normalBehavior_activated (e : Enemy) (px py : ℚ) (r : EnemyRand) :
    (normalBehavior e px py r).1.activated = e.activated := by
  unfold normalBehavior
  rw [golemIdleTick_activated]
  split
  · rw [engageStep_activated]
  · rw [wanderStep_activated]

theorem enemyUpdate_activated (w : World) (e : Enemy) (px py : ℚ) (r : EnemyRand)
    (h : e.activated = true) : ((enemyUpdate w e px py r).1).activated = true := by
  unfold enemyUpdate
  show ((if e.type = EnemyType.boss then bossBehavior e px py r
    else normalBehavior e px py r).1).activated = true
  by_cases ht : e.type = EnemyType.boss
  · rw [if_pos ht]
    exact bossBehavior_activated e px py r h
  · rw [if_neg ht]
    rw [normalBehavior_activated e px py r]
    exact h

/-- C5: the boss's `activated` flag is set (never cleared) when the
horizontal distance to the player first drops below 400, and once true it
stays true across every subsequent frame, for any sequence of worlds, player
positions and random draws — the boss never returns to the dormant state. -/
theorem boss_activation_one_way (w : World) (e : Enemy) (px py : ℚ)
    (r : EnemyRand) :
    (e.type = EnemyType.boss → e.activated = false → |px - e.ent.x| < 400 →
      ((enemyUpdate w e px py r).1).activated = true)
    ∧ (∀ frames : List (World × ℚ × ℚ × EnemyRand), e.activated = true →
      (frames.foldl (fun a f => (enemyUpdate f.1 a f.2.1 f.2.2.1 f.2.2.2).1)
          e).activated = true) := by
  constructor
  · intro ht hact hdist
    unfold enemyUpdate
    show ((if e.type = EnemyType.boss then bossBehavior e px py r
      else normalBehavior e px py r).1).activated = true
    rw [if_pos ht]
    unfold bossBehavior
    rw [show bossActivate e px = { e with activated := true } by
      unfold bossActivate
      rw [if_pos ⟨hact, hdist⟩]]
    rw [if_pos (show ({ e with activated := true } : Enemy).activated = true
      from rfl)]
    show ((bossPattern (bossTick { e with activated := true } r.pat)
        px py r).1).activated = true
    rw [bossPattern_activated, bossTick_activated]
  · intro frames
    induction frames generalizing e with
    | nil => intro h; exact h
    | cons f t ih =>
        intro h
        rw [List.foldl_cons]
        exact ih _ (enemyUpdate_activated f.1 e f.2.1 f.2.2.1 f.2.2.2 h)

/-! ### Boss step lemmas for the charge pattern (used by C7) -/

theorem boss_charge_select_step (e : Enemy) (px py : ℚ) (r : EnemyRand)
    (htype : e.type = EnemyType.boss) (hact : e.activated = true)
    (hcd : e.attack_cooldown ≤ 0) (hrp : r.pat = Pattern.charge)
    (hpx : px < e.ent.x) :
    enemyUpdate emptyWorld e px py r
      = ({ e with
            ent := moved { e.ent with vel_x := -5 }
            current_pattern := some Pattern.charge
            pattern_timer := 119
            attack_cooldown := 59 }, []) := by
  unfold enemyUpdate
  rw [if_pos htype]
  unfold bossBehavior
  rw [bossActivate_of_activated px hact, if_pos hact]
  have hsel : bossSelect e r.pat = { e with current_pattern := some r.pat,
                                             pattern_timer := 120,
                                             attack_cooldown := 60 } := by
    unfold bossSelect
    rw [if_pos hcd]
  have htick : bossTick e r.pat = { e with current_pattern := some r.pat,
                                            pattern_timer := 119,
                                            attack_cooldown := 60 } := by
    unfold bossTick
    rw [hsel]
    dsimp only
    simp only [Enemy.mk.injEq]
    norm_num
  rw [htick, hrp]
  unfold bossPattern
  dsimp only
  rw [if_pos (show (119 : Int) > 60 by norm_num), if_pos hpx]
  unfold bossCooldownTick physicsStage
  dsimp only
  rw [emptyWorld_step]
  simp only [Prod.mk.injEq, Enemy.mk.injEq]
  norm_num

theorem boss_charge_mid_step (e : Enemy) (px py : ℚ) (r : EnemyRand)
    (htype : e.type = EnemyType.boss) (hact : e.activated = true)
    (hcd : 0 < e.attack_cooldown)
    (hpat : e.current_pattern = some Pattern.charge)
    (ht : 60 < e.pattern_timer - 1) (hpx : px < e.ent.x) :
    enemyUpdate emptyWorld e px py r
      = ({ e with
            ent := moved { e.ent with vel_x := -5 }
            pattern_timer := e.pattern_timer - 1
            attack_cooldown := e.attack_cooldown - 1 }, []) := by
  unfold enemyUpdate
  rw [if_pos htype]
  unfold bossBehavior
  rw [bossActivate_of_activated px hact, if_pos hact]
  have htick : bossTick e r.pat = { e with pattern_timer := e.pattern_timer - 1 } := by
    unfold bossTick bossSelect
    rw [if_neg (by omega)]
  rw [htick]
  unfold bossPattern
  dsimp only
  rw [hpat]
  dsimp only
  rw [if_pos ht, if_pos hpx]
  unfold bossCooldownTick physicsStage
  dsimp only
  rw [emptyWorld_step]

theorem boss_charge_stop_step (e : Enemy) (px py : ℚ) (r : EnemyRand)
    (htype : e.type = EnemyType.boss) (hact : e.activated = true)
    (hcd : 0 < e.attack_cooldown)
    (hpat : e.current_pattern = some Pattern.charge)
    (ht : ¬ 60 < e.pattern_timer - 1) :
    enemyUpdate emptyWorld e px py r
      = ({ e with
            ent := moved { e.ent with vel_x := 0 }
            pattern_timer := e.pattern_timer - 1
            attack_cooldown := e.attack_cooldown - 1 }, []) := by
  unfold enemyUpdate
  rw [if_pos htype]
  unfold bossBehavior
  rw [bossActivate_of_activated px hact, if_pos hact]
  have htick : bossTick e r.pat = { e with pattern_timer := e.pattern_timer - 1 } := by
    unfold bossTick bossSelect
    rw [if_neg (by omega)]
  rw [htick]
  unfold bossPattern
  dsimp only
  rw [hpat]
  dsimp only
  rw [if_neg ht]
  unfold bossCooldownTick physicsStage
  dsimp only
  rw [emptyWorld_step]

/-- C5, witness: a dormant boss 200 px from the player activates, and an
activated boss stays activated across a frame in which the player has
retreated to 900 px away. -/
theorem boss_activation_one_way_witness :
    ((enemyUpdate emptyWorld (mkEnemy 500 0 EnemyType.boss 0) 300 0
        ⟨Pattern.jump, false, 0⟩).1).activated = true
    ∧ (([(emptyWorld, (2000 : ℚ), (0 : ℚ), (⟨Pattern.jump, false, 0⟩ : EnemyRand))].foldl
        (fun a f => (enemyUpdate f.1 a f.2.1 f.2.2.1 f.2.2.2).1)
        { mkEnemy 500 0 EnemyType.boss 0 with activated := true }).activated
          = true) :=
  ⟨(boss_activation_one_way emptyWorld (mkEnemy 500 0 EnemyType.boss 0) 300 0
      ⟨Pattern.jump, false, 0⟩).1 rfl rfl (by
        show |(300 : ℚ) - (mkEnemy 500 0 EnemyType.boss 0).ent.x| < 400
        norm_num [mkEnemy]),
   (boss_activation_one_way emptyWorld
      { mkEnemy 500 0 EnemyType.boss 0 with activated := true } 0 0
      ⟨Pattern.jump, false, 0⟩).2
      [(emptyWorld, (2000 : ℚ), (0 : ℚ), (⟨Pattern.jump, false, 0⟩ : EnemyRand))]
      rfl⟩

/-! ### C7: the charge pattern's active window -/

set_option maxRecDepth 400000 in
/-- C7, counterexample: the pattern window (the interval between successive
pattern selections) lasts 60 frames — selection happens whenever
`attack_cooldown` reaches 0, and the cooldown is reset to 60 and decremented
once per frame.  Two-thirds of the window is 40 frames, so the claim
requires zero horizontal velocity from frame 41 of the window on; but on
frame 41 of a charge window the boss still moves at -5 (the charge branch
runs while `pattern_timer > 60`, i.e. through frame 59 of 60). -/
theorem charge_two_thirds_counterexample :
    (((fun e : Enemy => (enemyUpdate emptyWorld e 0 0
          ⟨Pattern.charge, false, 0⟩).1)^[41])
        ⟨⟨1000, 0, 180, 210, 0, 0, false⟩, EnemyType.boss, 200, 200, 4/5, 25, 1,
          0, 0, true, none, 0⟩).ent.vel_x = -5
    ∧ ¬ (((fun e : Enemy => (enemyUpdate emptyWorld e 0 0
          ⟨Pattern.charge, false, 0⟩).1)^[41])
        ⟨⟨1000, 0, 180, 210, 0, 0, false⟩, EnemyType.boss, 200, 200, 4/5, 25, 1,
          0, 0, true, none, 0⟩).ent.vel_x = 0 := by
  with_unfolding_all decide

set_option maxRecDepth 40000 in
/-- C7 (amended): an activated boss in an obstacle-free region whose
cooldown expires (so a pattern selection fires) and which draws the Charge
pattern, with the player far to its left, sustains horizontal velocity -5
toward the player for frames 1 through 59 of the 60-frame pattern window
and has zero horizontal velocity on frame 60, the final frame before the
next selection — 59/60 of the window, not the first two-thirds. -/
theorem charge_pattern_window (x0 y0 w0 h0 vx0 vy0 : ℚ) (og0 : Bool)
    (hp mh sp dm : ℚ) (d0 it0 cd0 t0 : Int) (p0 : Option Pattern) (px py : ℚ)
    (hcd : cd0 ≤ 0) (hpx : px < x0 - 290) :
    (∀ k : Nat, 1 ≤ k → k ≤ 59 →
      (((fun e : Enemy => (enemyUpdate emptyWorld e px py
          ⟨Pattern.charge, false, 0⟩).1)^[k])
        ⟨⟨x0, y0, w0, h0, vx0, vy0, og0⟩, EnemyType.boss, hp, mh, sp, dm, d0,
          it0, cd0, true, p0, t0⟩).ent.vel_x = -5)
    ∧ (((fun e : Enemy => (enemyUpdate emptyWorld e px py
          ⟨Pattern.charge, false, 0⟩).1)^[60])
        ⟨⟨x0, y0, w0, h0, vx0, vy0, og0⟩, EnemyType.boss, hp, mh, sp, dm, d0,
          it0, cd0, true, p0, t0⟩).ent.vel_x = 0 := by
  have hstate : ∀ k : Nat, 1 ≤ k → k ≤ 59 →
      (((fun e : Enemy => (enemyUpdate emptyWorld e px py
          ⟨Pattern.charge, false, 0⟩).1)^[k])
        ⟨⟨x0, y0, w0, h0, vx0, vy0, og0⟩, EnemyType.boss, hp, mh, sp, dm, d0,
          it0, cd0, true, p0, t0⟩)
      = ⟨⟨x0 - 5 * (k : ℚ), y0 + (k : ℚ) * vy0 + ((k : ℚ) * ((k : ℚ) + 1))/4,
          w0, h0, -5, vy0 + (k : ℚ)/2, false⟩, EnemyType.boss, hp, mh, sp, dm,
          d0, it0, 60 - (k : Int), true, some Pattern.charge,
          120 - (k : Int)⟩ := by
    intro k
    induction k with
    | zero => intro h1 _; exact absurd h1 (by norm_num)
    | succ k ih =>
        intro _ hk59
        rcases Nat.eq_zero_or_pos k with hk0 | hkpos
        · subst hk0
          rw [Function.iterate_one]
          rw [boss_charge_select_step _ _ _ _ rfl rfl hcd rfl
            (by dsimp only; linarith)]
          dsimp only
          unfold moved
          apply Enemy.ext <;> dsimp only <;>
            first
              | rfl
              | omega
              | (apply Entity.ext <;> dsimp only <;>
                  first
                    | rfl
                    | (rw [gravity_eq]; push_cast; ring)
                    | (push_cast; ring))
        · have hst := ih hkpos (by omega)
          rw [Function.iterate_succ_apply', hst]
          have hk58 : (k : ℚ) ≤ 58 := by
            have : k ≤ 58 := by omega
            exact_mod_cast this
          rw [boss_charge_mid_step _ _ _ _ rfl rfl (by dsimp only; omega) rfl
            (by dsimp only; omega) (by dsimp only; linarith)]
          dsimp only
          unfold moved
          apply Enemy.ext <;> dsimp only <;>
            first
              | rfl
              | omega
              | (apply Entity.ext <;> dsimp only <;>
                  first
                    | rfl
                    | (rw [gravity_eq]; push_cast; ring)
                    | (push_cast; ring))
  constructor
  · intro k hk1 hk59
    rw [hstate k hk1 hk59]
  · have hst := hstate 59 (by norm_num) (by norm_num)
    rw [show (60 : Nat) = 59 + 1 from rfl, Function.iterate_succ_apply', hst]
    rw [boss_charge_stop_step _ _ _ _ rfl rfl (by dsimp only; omega) rfl
      (by dsimp only; omega)]
    rfl

/-- C7 (amended), witness: frame 30 of a concrete charge window still has
velocity -5. -/
theorem charge_pattern_window_witness :
    (((fun e : Enemy => (enemyUpdate emptyWorld e 0 0
        ⟨Pattern.charge, false, 0⟩).1)^[30])
      ⟨⟨1000, 2, 180, 210, 3, 4, true⟩, EnemyType.boss, 200, 200, 4/5, 25, 1,
        7, -2, true, some Pattern.jump, 77⟩).ent.vel_x = -5 :=
  (charge_pattern_window 1000 2 180 210 3 4 true 200 200 (4/5) 25 1 7 (-2) 77
      (some Pattern.jump) 0 0 (by norm_num) (by norm_num)).1 30 (by norm_num)
      (by norm_num)

/-! ### pygame rectangles and the combat handlers -/

/-- `pygame.Rect` converts float coordinates to integers by truncation
toward zero. -/
def pyTrunc (q : ℚ) : Int := if q < 0 then -⌊-q⌋ else ⌊q⌋

/-- An integer rectangle as built by `pygame.Rect(x, y, w, h)`. -/
structure PyRect where
  x : Int
  y : Int
  w : Int
  h : Int
deriving DecidableEq, Repr

def mkRect (x y w h : ℚ) : PyRect := ⟨pyTrunc x, pyTrunc y, pyTrunc w, pyTrunc h⟩

/-- `Rect.colliderect`: true exactly when the overlap is strictly
positive on both axes. -/
def colliderect (a b : PyRect) : Bool :=
  decide (a.x < b.x + b.w ∧ a.x + a.w > b.x ∧ a.y < b.y + b.h ∧ a.y + a.h > b.y)

/-- `pygame.Rect(enemy.x, enemy.y, enemy.width, enemy.height)`
(lines 247, 1347). -/
def enemyRect (e : Enemy) : PyRect :=
  mkRect e.ent.x e.ent.y e.ent.width e.ent.height

/-- `pygame.Rect(projectile.x - size, projectile.y - size, size*2, size*2)`
(lines 1327-1332). -/
def projRect (p : Projectile) : PyRect :=
  mkRect (p.x - p.size) (p.y - p.size) (p.size * 2) (p.size * 2)

/-- Player.attack per-target processing (lines 246-269): a target hit by
the attack rect takes 5 damage if it is the boss, 20 otherwise; on death it
is removed and drops 10 items if it is the boss, else `random.randint(1,3)`
items (the `roll` argument). -/
def meleeProcessEnemy (ar : PyRect) (e : Enemy) (roll : Nat) :
    Option Enemy × Nat :=
  if colliderect ar (enemyRect e) then
    let e2 : Enemy :=
      { e with health := e.health - (if e.type = EnemyType.boss then 5 else 20) }
    if e2.health ≤ 0 then (none, if e.type = EnemyType.boss then 10 else roll)
    else (some e2, 0)
  else (some e, 0)

/-- main lines 1301-1311: the per-frame death sweep after `enemy.update` —
an enemy at health ≤ 0 is removed and drops `random.randint(1,3)` items
(the `roll` argument), with no special case for the boss. -/
def sweepProcessEnemy (e : Enemy) (roll : Nat) : Option Enemy × Nat :=
  if e.health ≤ 0 then (none, roll) else (some e, 0)

/-- main lines 1346-1366: one live projectile tested against the enemies
list in order; the first colliding enemy takes the fixed 10 damage, the
projectile is consumed, and a death drops `random.randint(1,3)` items (the
`roll` argument), with no special case for the boss.  Returns the new
enemies list, whether the projectile was consumed, and the items
spawned. -/
def projHitEnemies (pr : PyRect) (enemies : List Enemy) (roll : Nat) :
    List Enemy × Bool × Nat :=
  match enemies with
  | [] => ([], false, 0)
  | e :: rest =>
    if colliderect pr (enemyRect e) then
      let e2 : Enemy := { e with health := e.health - 10 }
      if e2.health ≤ 0 then (rest, true, roll)
      else (e2 :: rest, true, 0)
    else
      let r2 := projHitEnemies pr rest roll
      (e :: r2.1, r2.2.1, r2.2.2)

/-! ### C6: loot scaling -/

/-- C6, counterexample: a boss-class enemy dying to a projectile hit
(health 5, takes the fixed 10 damage) drops only the ordinary
`random.randint(1,3)` items — here 1, which is not at least triple the
ordinary drop.  The tenfold boss drop exists only in the melee-attack
path. -/
theorem boss_loot_counterexample :
    projHitEnemies ⟨-5, -5, 20, 20⟩
        [{ mkEnemy 0 0 EnemyType.boss 0 with health := 5 }] 1
      = ([], true, 1)
    ∧ ({ mkEnemy 0 0 EnemyType.boss 0 with health := 5 } : Enemy).type
        = EnemyType.boss
    ∧ ¬ 3 ≤ (projHitEnemies ⟨-5, -5, 20, 20⟩
        [{ mkEnemy 0 0 EnemyType.boss 0 with health := 5 }] 1).2.2 := by
  with_unfolding_all decide

/-- C6 (amended): every enemy death spawns at least one item at every death
site; a boss death by melee spawns exactly 10 items, at least triple the
1-3 item drop of an ordinary melee death; but boss deaths through the
projectile handler or the per-frame sweep spawn only the ordinary
`random.randint(1,3)` items, exactly like ordinary enemies. -/
theorem loot_scaling (e : Enemy) (roll : Nat) (ar pr : PyRect)
    (h1 : 1 ≤ roll) (h3 : roll ≤ 3) :
    (colliderect ar (enemyRect e) = true → e.type = EnemyType.boss →
      e.health - 5 ≤ 0 →
      meleeProcessEnemy ar e roll = (none, 10) ∧ 3 * roll ≤ 10 ∧ 1 ≤ 10)
    ∧ (colliderect ar (enemyRect e) = true → e.type ≠ EnemyType.boss →
      e.health - 20 ≤ 0 →
      meleeProcessEnemy ar e roll = (none, roll) ∧ 1 ≤ roll ∧ roll ≤ 3)
    ∧ (e.health ≤ 0 →
      sweepProcessEnemy e roll = (none, roll) ∧ 1 ≤ roll ∧ roll ≤ 3)
    ∧ (∀ rest, colliderect pr (enemyRect e) = true → e.health - 10 ≤ 0 →
      projHitEnemies pr (e :: rest) roll = (rest, true, roll)) := by
  refine ⟨?_, ?_, ?_, ?_⟩
  · intro hc ht hd
    refine ⟨?_, by omega, by omega⟩
    unfold meleeProcessEnemy
    rw [if_pos hc, ht]
    dsimp only
    simp only [reduceIte]
    rw [if_pos hd]
  · intro hc ht hd
    refine ⟨?_, by omega, by omega⟩
    unfold meleeProcessEnemy
    rw [if_pos hc]
    dsimp only
    rw [if_neg ht, if_neg ht]
    rw [if_pos hd]
  · intro hd
    refine ⟨?_, by omega, by omega⟩
    unfold sweepProcessEnemy
    rw [if_pos hd]
  · intro rest hc hd
    unfold projHitEnemies
    rw [if_pos hc]
    dsimp only
    rw [if_pos hd]

/-- C6 (amended), witness: a boss melee death drops 10; a slime killed by
the sweep or a projectile drops the rolled 2. -/
theorem loot_scaling_witness :
    meleeProcessEnemy ⟨-5, -5, 20, 20⟩
        { mkEnemy 0 0 EnemyType.boss 0 with health := 5 } 2 = (none, 10)
    ∧ sweepProcessEnemy { mkEnemy 0 0 EnemyType.slime 0 with health := -1 } 2
        = (none, 2)
    ∧ projHitEnemies ⟨-5, -5, 20, 20⟩
        [{ mkEnemy 0 0 EnemyType.slime 0 with health := 8 }] 2 = ([], true, 2) :=
  ⟨((loot_scaling { mkEnemy 0 0 EnemyType.boss 0 with health := 5 } 2
      ⟨-5, -5, 20, 20⟩ ⟨-5, -5, 20, 20⟩ (by norm_num) (by norm_num)).1
      (by with_unfolding_all decide) rfl (by norm_num [mkEnemy])).1,
   ((loot_scaling { mkEnemy 0 0 EnemyType.slime 0 with health := -1 } 2
      ⟨-5, -5, 20, 20⟩ ⟨-5, -5, 20, 20⟩ (by norm_num) (by norm_num)).2.2.1
      (by norm_num [mkEnemy])).1,
   (loot_scaling { mkEnemy 0 0 EnemyType.slime 0 with health := 8 } 2
      ⟨-5, -5, 20, 20⟩ ⟨-5, -5, 20, 20⟩ (by norm_num) (by norm_num)).2.2.2 []
      (by with_unfolding_all decide) (by norm_num [mkEnemy])⟩

/-! ### The player (class Player, lines 155-225) -/

inductive Facing where
  | left | right
deriving DecidableEq, Repr

/-- Item state (Item.__init__, lines 551-558); width = height = 15, the
bobbing counters are presentation-only and omitted. -/
structure Item where
  x : ℚ
  y : ℚ
  type : Kind
deriving DecidableEq, Repr

def ITEM_SIZE : ℚ := 15

/-- Player state (Player.__init__, lines 156-168). -/
structure Player where
  ent : Entity
  is_jumping : Bool
  facing : Facing
  animation_frame : ℚ
  inventory : Inventory
  selected_block : Kind
  health : ℚ
  max_health : ℚ
  invincible : Int
  attack_cooldown : Int
  attacking : Bool
  attack_frame : ℚ
deriving DecidableEq, Repr

/-- Lines 197-200: player-enemy AABB overlap test. -/
def playerOverlapsEnemy (p : Player) (e : Enemy) : Bool :=
  decide (p.ent.x < e.ent.x + e.ent.width ∧ p.ent.x + p.ent.width > e.ent.x
    ∧ p.ent.y < e.ent.y + e.ent.height ∧ p.ent.y + p.ent.height > e.ent.y)

/-- Lines 216-219: player-item AABB overlap test. -/
def playerOverlapsItem (p : Player) (it : Item) : Bool :=
  decide (p.ent.x < it.x + ITEM_SIZE ∧ p.ent.x + p.ent.width > it.x
    ∧ p.ent.y < it.y + ITEM_SIZE ∧ p.ent.y + p.ent.height > it.y)

/-- Lines 171-172: physics, then `is_jumping = not on_ground`. -/
def playerPhysicsStage (w : World) (p : Player) : Player :=
  { p with ent := updatePhysics w p.ent
           is_jumping := !(updatePhysics w p.ent).on_ground }

/-- Line 175: `self.x = max(0, min(self.x, WORLD_WIDTH - self.width))` —
the only world-bounds adjustment in the code, horizontal and
player-specific. -/
def playerClampStage (p : Player) : Player :=
  { p with ent := { p.ent with
      x := max 0 (min p.ent.x (WORLD_WIDTH - p.ent.width)) } }

/-- Lines 178-181: walking animation counter. -/
def playerAnimStage (p : Player) : Player :=
  if |p.ent.vel_x| > 1/10 ∨ |p.ent.vel_y| > 1/10 then
    if p.animation_frame + 1/5 ≥ 4 then { p with animation_frame := 0 }
    else { p with animation_frame := p.animation_frame + 1/5 }
  else p

/-- Lines 184-185: attack cooldown tick. -/
def playerCooldownStage (p : Player) : Player :=
  if p.attack_cooldown > 0 then { p with attack_cooldown := p.attack_cooldown - 1 }
  else p

/-- Lines 188-192: attack animation counter. -/
def playerAttackAnimStage (p : Player) : Player :=
  if p.attacking = true then
    if p.attack_frame + 1/2 ≥ 4 then { p with attacking := false, attack_frame := 0 }
    else { p with attack_frame := p.attack_frame + 1/2 }
  else p

/-- Lines 194-212: contact damage from the first overlapping enemy (only
when not invincible), with knockback applied to the velocity; otherwise the
invincibility window ticks down. -/
def playerContactStage (p : Player) (enemies : List Enemy) : Player :=
  if p.invincible ≤ 0 then
    match enemies.find? (fun en => playerOverlapsEnemy p en) with
    | some en =>
      { p with health := p.health - en.damage
               invincible := 60
               ent := { p.ent with
                  vel_x := if en.ent.x < p.ent.x then 5 else -5
                  vel_y := -5 } }
    | none => p
  else { p with invincible := p.invincible - 1 }

/-- Lines 215-225: item pickup — each overlapping item increments the
matching inventory counter (`KeyError` possible in principle) and is
removed from the item list. -/
def pickupItems (p : Player) : List Item → Except String (Player × List Item)
  | [] => Except.ok (p, [])
  | it :: rest =>
    if playerOverlapsItem p it then
      match invIncr p.inventory it.type with
      | Except.error s => Except.error s
      | Except.ok inv2 =>
        match pickupItems { p with inventory := inv2 } rest with
        | Except.error s => Except.error s
        | Except.ok (p2, rest2) => Except.ok (p2, rest2)
    else
      match pickupItems p rest with
      | Except.error s => Except.error s
      | Except.ok (p2, rest2) => Except.ok (p2, it :: rest2)

/-- Player.update (lines 170-225): physics, bounds clamp, animation and
timer bookkeeping, contact damage, item pickup. -/
def playerUpdate (w : World) (p : Player) (enemies : List Enemy)
    (items : List Item) : Except String (Player × List Item) :=
  pickupItems
    (playerContactStage
      (playerAttackAnimStage (playerCooldownStage (playerAnimStage
        (playerClampStage (playerPhysicsStage w p))))) enemies) items

/-! ### C8: world-bounds clamping -/

theorem resolveBlock_dims (e : Entity) (b : Block) :
    (resolveBlock e b).width = e.width ∧ (resolveBlock e b).height = e.height := by
  unfold resolveBlock
  repeat' split
  all_goals exact ⟨rfl, rfl⟩

theorem foldl_resolve_dims :
    ∀ (L : List Block) (e : Entity),
      ((L.foldl resolveBlock e).width = e.width
        ∧ (L.foldl resolveBlock e).height = e.height)
  | [], _ => ⟨rfl, rfl⟩
  | b :: t, e => by
      rw [List.foldl_cons]
      have h1 := resolveBlock_dims e b
      have h2 := foldl_resolve_dims t (resolveBlock e b)
      exact ⟨h2.1.trans h1.1, h2.2.trans h1.2⟩

theorem updatePhysics_width (w : World) (e : Entity) :
    (updatePhysics w e).width = e.width := by
  rw [updatePhysics_eq]
  exact (foldl_resolve_dims _ _).1

theorem playerAnimStage_ent (p : Player) : (playerAnimStage p).ent = p.ent := by
  unfold playerAnimStage
  repeat' split
  all_goals rfl

theorem playerCooldownStage_ent (p : Player) :
    (playerCooldownStage p).ent = p.ent := by
  unfold playerCooldownStage
  split <;> rfl

theorem playerAttackAnimStage_ent (p : Player) :
    (playerAttackAnimStage p).ent = p.ent := by
  unfold playerAttackAnimStage
  repeat' split
  all_goals rfl

theorem playerContactStage_pos (p : Player) (enemies : List Enemy) :
    (playerContactStage p enemies).ent.x = p.ent.x
    ∧ (playerContactStage p enemies).ent.y = p.ent.y := by
  unfold playerContactStage
  repeat' split
  all_goals exact ⟨rfl, rfl⟩

/-- C8, counterexample: `Entity.update_physics` itself applies no clamping
at all — an entity one physics step from the left world edge ends at
x = -3, outside [0, WORLD_WIDTH - width].  (Enemies receive exactly this
un-clamped step; only `Player.update` clamps afterwards.) -/
theorem entity_clamp_counterexample :
    (updatePhysics emptyWorld ⟨2, 0, 30, 45, -5, 0, false⟩).x = -3
    ∧ ¬ (0 ≤ (updatePhysics emptyWorld ⟨2, 0, 30, 45, -5, 0, false⟩).x) := by
  with_unfolding_all decide

/-- C8 (amended): the world-bounds clamp lives in `Player.update`, not in
`update_physics`, and it is horizontal only: after `Player.update` the
player's x lies in [0, WORLD_WIDTH − width], while its y is exactly the
un-clamped physics result — no vertical world bound is applied to the
player (nor to anyone else), and entities other than the player are never
clamped at all (their step is plain `update_physics`; see the
counterexample). -/
theorem player_horizontal_clamp (w : World) (p : Player)
    (enemies : List Enemy) (hw : p.ent.width ≤ WORLD_WIDTH) :
    ∀ p2 rest, playerUpdate w p enemies [] = Except.ok (p2, rest) →
      (0 ≤ p2.ent.x ∧ p2.ent.x ≤ WORLD_WIDTH - p.ent.width)
      ∧ p2.ent.y = (updatePhysics w p.ent).y := by
  intro p2 rest heq
  have hres : playerUpdate w p enemies []
      = Except.ok (playerContactStage
          (playerAttackAnimStage (playerCooldownStage (playerAnimStage
            (playerClampStage (playerPhysicsStage w p))))) enemies, []) := rfl
  rw [hres, Except.ok.injEq, Prod.mk.injEq] at heq
  obtain ⟨hp2, -⟩ := heq
  subst hp2
  have hx := (playerContactStage_pos (playerAttackAnimStage (playerCooldownStage
    (playerAnimStage (playerClampStage (playerPhysicsStage w p))))) enemies).1
  have hy := (playerContactStage_pos (playerAttackAnimStage (playerCooldownStage
    (playerAnimStage (playerClampStage (playerPhysicsStage w p))))) enemies).2
  rw [hx, hy, playerAttackAnimStage_ent, playerCooldownStage_ent,
    playerAnimStage_ent]
  have hwidth : (playerPhysicsStage w p).ent.width = p.ent.width :=
    updatePhysics_width w p.ent
  have hclamp : (playerClampStage (playerPhysicsStage w p)).ent.x
      = max 0 (min (playerPhysicsStage w p).ent.x (WORLD_WIDTH - p.ent.width)) := by
    rw [show (playerClampStage (playerPhysicsStage w p)).ent.x
        = max 0 (min (playerPhysicsStage w p).ent.x
            (WORLD_WIDTH - (playerPhysicsStage w p).ent.width)) from rfl, hwidth]
  rw [hclamp]
  exact ⟨⟨le_max_left 0 _, max_le (by linarith) (min_le_right _ _)⟩, rfl⟩

/-- C8 (amended), witness: a falling player one step left of the world edge
keeps its un-clamped vertical position (5000 plus the gravity fall), while
its x is clamped from -7 up to 0. -/
theorem player_horizontal_clamp_witness :
    ((0 : ℚ) ≤ 0 ∧ (0 : ℚ) ≤ WORLD_WIDTH - 30)
    ∧ (10001/2 : ℚ)
        = (updatePhysics emptyWorld ⟨-7, 5000, 30, 45, 0, 0, false⟩).y :=
  player_horizontal_clamp emptyWorld
    ⟨⟨-7, 5000, 30, 45, 0, 0, false⟩, false, Facing.right, 0,
      initialInventory, Kind.grass, 100, 100, 0, 0, false, 0⟩ []
    (by norm_num [WORLD_WIDTH])
    ⟨⟨0, 10001/2, 30, 45, 0, 1/2, false⟩, true, Facing.right, 1/5,
      initialInventory, Kind.grass, 100, 100, 0, 0, false, 0⟩ []
    (by with_unfolding_all rfl)

/-! ### C10 groundwork: truncation lemmas and the firing step lemmas -/

theorem pyTrunc_intCast (n : Int) : pyTrunc ((n : Int) : ℚ) = n := by
  unfold pyTrunc
  split
  · rw [← Int.cast_neg, Int.floor_intCast]
    omega
  · exact Int.floor_intCast n

theorem pyTrunc_bounds (q : ℚ) :
    q - 1 < (pyTrunc q : ℚ) ∧ (pyTrunc q : ℚ) < q + 1 := by
  unfold pyTrunc
  split
  · push_cast
    constructor <;> nlinarith [Int.floor_le (-q), Int.lt_floor_add_one (-q)]
  · constructor <;> nlinarith [Int.floor_le q, Int.lt_floor_add_one q]

theorem pyTrunc_int_add_frac (n : Int) (hn : 0 ≤ n) :
    pyTrunc ((n : ℚ) + 7/20) = n := by
  unfold pyTrunc
  rw [if_neg (by intro h; nlinarith [(show (0:ℚ) ≤ (n:ℚ) by exact_mod_cast hn)])]
  rw [show ((n : ℚ) + 7/20) = 7/20 + (n : ℚ) from by ring, Int.floor_add_int]
  rw [show ⌊(7/20 : ℚ)⌋ = 0 from by
    rw [Int.floor_eq_zero_iff]
    constructor <;> norm_num]
  omega

theorem pyTrunc_int_sub_frac (n : Int) (hn : 1 ≤ n) :
    pyTrunc ((n : ℚ) - 7/20) = n - 1 := by
  unfold pyTrunc
  rw [if_neg (by intro h; nlinarith [(show (1:ℚ) ≤ (n:ℚ) by exact_mod_cast hn)])]
  rw [show ((n : ℚ) - 7/20) = -(7/20) + (n : ℚ) from by ring, Int.floor_add_int]
  rw [show ⌊(-(7/20) : ℚ)⌋ = -1 from by
    rw [Int.floor_eq_iff]
    constructor <;> norm_num]
  omega

/-- `|d| ≤ s` (true of `s = sqrt(dx² + dy²)` for either component) bounds
the aimed-projectile velocity component by 6. -/
theorem aim_component_bound (d s : ℚ) (h : |d| ≤ s) :
    |d / max 1 s * 6| ≤ 6 := by
  have hs1 : (1 : ℚ) ≤ max 1 s := le_max_left _ _
  have hspos : (0 : ℚ) < max 1 s := lt_of_lt_of_le one_pos hs1
  have hds : |d| ≤ max 1 s := le_trans h (le_max_right _ _)
  rw [abs_mul, abs_div, abs_of_pos hspos]
  have hq : |d| / max 1 s ≤ 1 := (div_le_one hspos).mpr hds
  have h6 : |(6 : ℚ)| = 6 := by norm_num
  rw [h6]
  nlinarith [abs_nonneg d, hq]

/-- The ice golem's firing frame (idle timer expired, player within 200):
the full Enemy.update in one equation. -/
theorem golem_fire_step (w : World) (e : Enemy) (px py : ℚ) (r : EnemyRand)
    (htype : e.type = EnemyType.ice_golem) (hidle : e.idle_timer ≤ 0)
    (hnear : |e.ent.x - px| < 200) :
    enemyUpdate w e px py r
      = ({ e with
            direction := if px < e.ent.x then -1 else 1
            idle_timer := 119
            ent := updatePhysics w { e.ent with
              vel_x := (@Int.cast ℚ _ (if px < e.ent.x then -1 else 1))
                * e.speed * (1/2) } },
         [⟨e.ent.x + ((⌊e.ent.width / 2⌋ : Int) : ℚ),
           e.ent.y + ((⌊e.ent.height / 2⌋ : Int) : ℚ),
           (@Int.cast ℚ _ (if px < e.ent.x then -1 else 1)) * 5, 0,
           ProjType.ice, 60, 10⟩]) := by
  unfold enemyUpdate
  rw [if_neg (by rw [htype]; exact fun h => EnemyType.noConfusion h)]
  unfold normalBehavior
  rw [if_pos (lt_trans hnear (by norm_num))]
  unfold engageStep
  dsimp only
  rw [htype]
  dsimp only
  rw [if_pos ⟨hidle, hnear⟩]
  unfold golemIdleTick golemVel golemShot physicsStage
  dsimp only
  rw [if_pos (rfl : EnemyType.ice_golem = EnemyType.ice_golem)]
  dsimp only
  rw [Prod.mk.injEq]
  refine ⟨?_, rfl⟩
  apply Enemy.ext <;> dsimp only <;> first | rfl | omega

/-- The boss's firing frame inside a projectile-pattern window (mid-window,
timer hitting a multiple of 30 after the tick): the full Enemy.update in
one equation. -/
theorem boss_fire_step (w : World) (e : Enemy) (px py : ℚ) (r : EnemyRand)
    (htype : e.type = EnemyType.boss) (hact : e.activated = true)
    (hcd : 0 < e.attack_cooldown)
    (hpat : e.current_pattern = some Pattern.projectile)
    (hfire : Int.emod (e.pattern_timer - 1) 30 = 0) :
    enemyUpdate w e px py r
      = ({ e with
            ent := updatePhysics w e.ent
            pattern_timer := e.pattern_timer - 1
            attack_cooldown := e.attack_cooldown - 1 },
         [bossShot e px py r.dist]) := by
  unfold enemyUpdate
  rw [if_pos htype]
  unfold bossBehavior
  rw [bossActivate_of_activated px hact, if_pos hact]
  have htick : bossTick e r.pat = { e with pattern_timer := e.pattern_timer - 1 } := by
    unfold bossTick bossSelect
    rw [if_neg (by omega)]
  rw [htick]
  unfold bossPattern
  dsimp only
  rw [hpat]
  dsimp only
  rw [if_pos hfire]
  unfold bossCooldownTick physicsStage
  dsimp only
  rfl

/-! ### C10: shooters are hit by their own projectiles -/

/-- C10: a projectile fired by an ice golem (idle timer expired, player in
range) or by the activated boss (projectile pattern, firing frame) spawns
at the shooter's own centre; after one Projectile.update step its rect
still overlaps the shooter's rect while its lifetime is still positive, so
the main-loop collision pass — which tests every projectile against every
enemy, the shooter included — consumes the projectile and deals the fixed
10 damage to the shooter whenever the shooter heads the enemies list.
Stated for shooters at rest on the infinite floor row. -/
theorem projectile_self_hit
    (xi fy xb : Int) (px py qx qy : ℚ)
    (h0 mh dm hb mhb dmb : ℚ) (d0 it0 cd0 t0 dB itB cdB tB : Int)
    (act0 ogG ogB : Bool) (cp0 : Option Pattern) (r rB : EnemyRand)
    (g' b' : Enemy) (p pb : Projectile)
    (hnear : |((xi : Int) : ℚ) - px| < 200)
    (hidle : it0 ≤ 0) (hh : 10 < h0)
    (hcdB : 0 < cdB) (hfire : Int.emod (tB - 1) 30 = 0) (hhb : 10 < hb)
    (hsx : |qx - ((xb : Int) : ℚ)| ≤ rB.dist)
    (hsy : |qy - (((fy : Int) : ℚ) - 210)| ≤ rB.dist)
    (hstep : enemyUpdate (floorWorld fy)
      ⟨⟨((xi : Int) : ℚ), ((fy : Int) : ℚ) - 45, 30, 45, 0, 0, ogG⟩,
       EnemyType.ice_golem, h0, mh, 7/10, dm, d0, it0, cd0, act0, cp0, t0⟩
      px py r = (g', [p]))
    (hstepB : enemyUpdate (floorWorld fy)
      ⟨⟨((xb : Int) : ℚ), ((fy : Int) : ℚ) - 210, 180, 210, 0, 0, ogB⟩,
       EnemyType.boss, hb, mhb, 4/5, dmb, dB, itB, cdB, true,
       some Pattern.projectile, tB⟩
      qx qy rB = (b', [pb])) :
    (0 < (projUpdate p).lifetime
      ∧ p.x = ((xi : Int) : ℚ) + 15
      ∧ p.y = ((fy : Int) : ℚ) - 23
      ∧ colliderect (projRect (projUpdate p)) (enemyRect g') = true
      ∧ ∀ rest roll, projHitEnemies (projRect (projUpdate p)) (g' :: rest) roll
          = ({ g' with health := g'.health - 10 } :: rest, true, 0))
    ∧ (0 < (projUpdate pb).lifetime
      ∧ pb.x = ((xb : Int) : ℚ) + 90
      ∧ pb.y = ((fy : Int) : ℚ) - 105
      ∧ colliderect (projRect (projUpdate pb)) (enemyRect b') = true
      ∧ ∀ rest roll, projHitEnemies (projRect (projUpdate pb)) (b' :: rest) roll
          = ({ b' with health := b'.health - 10 } :: rest, true, 0)) := by
  constructor
  · rw [golem_fire_step (floorWorld fy)
        ⟨⟨((xi : Int) : ℚ), ((fy : Int) : ℚ) - 45, 30, 45, 0, 0, ogG⟩,
         EnemyType.ice_golem, h0, mh, 7/10, dm, d0, it0, cd0, act0, cp0, t0⟩
        px py r rfl hidle hnear] at hstep
    dsimp only at hstep
    rw [floor_step_snap fy
        ⟨((xi : Int) : ℚ), ((fy : Int) : ℚ) - 45, 30, 45,
         (@Int.cast ℚ _ (if px < ((xi : Int) : ℚ) then -1 else 1))
           * (7/10) * (1/2), 0, ogG⟩
        (by show (0:ℚ) < 30; norm_num)
        (by show (0:ℚ) < 0 + 1/2; norm_num)
        (by show ((fy : Int) : ℚ) - 45 + (0 + 1/2) < ((fy : Int) : ℚ); linarith)
        (by show ((fy : Int) : ℚ)
              < ((fy : Int) : ℚ) - 45 + (0 + 1/2) + 45; linarith)
        (by show ((fy : Int) : ℚ) - 640
              ≤ ((fy : Int) : ℚ) - 45 + (0 + 1/2); linarith)] at hstep
    dsimp only at hstep
    injection hstep with hg hpl
    injection hpl with hp hnil
    have hcol : colliderect (projRect (projUpdate p)) (enemyRect g') = true := by
      rw [← hp, ← hg]
      unfold projUpdate projRect enemyRect mkRect colliderect
      dsimp only
      rw [show ⌊(30:ℚ)/2⌋ = 15 from by with_unfolding_all decide,
          show ⌊(45:ℚ)/2⌋ = 22 from by with_unfolding_all decide,
          show ((15 : Int) : ℚ) = 15 from by norm_num,
          show ((22 : Int) : ℚ) = 22 from by norm_num,
          show pyTrunc ((10:ℚ) * 2) = 20 from by with_unfolding_all decide,
          show pyTrunc (30:ℚ) = 30 from by with_unfolding_all decide,
          show pyTrunc (45:ℚ) = 45 from by with_unfolding_all decide,
          decide_eq_true_eq]
      have hA1 : (-1 : ℚ)
          ≤ @Int.cast ℚ _ (if px < ((xi : Int) : ℚ) then -1 else 1) := by
        by_cases h : px < ((xi : Int) : ℚ)
        · rw [if_pos h]; norm_num
        · rw [if_neg h]; norm_num
      have hA2 : @Int.cast ℚ _ (if px < ((xi : Int) : ℚ) then -1 else 1)
          ≤ 1 := by
        by_cases h : px < ((xi : Int) : ℚ)
        · rw [if_pos h]; norm_num
        · rw [if_neg h]; norm_num
      obtain ⟨u1, u2⟩ := pyTrunc_bounds (((xi : Int) : ℚ) + 15
        + (@Int.cast ℚ _ (if px < ((xi : Int) : ℚ) then -1 else 1)) * 5 - 10)
      obtain ⟨v1, v2⟩ := pyTrunc_bounds (((fy : Int) : ℚ) - 45 + 22 + 0 - 10)
      obtain ⟨w1, w2⟩ := pyTrunc_bounds (((xi : Int) : ℚ)
        + (@Int.cast ℚ _ (if px < ((xi : Int) : ℚ) then -1 else 1))
          * (7/10) * (1/2))
      obtain ⟨z1, z2⟩ := pyTrunc_bounds (((fy : Int) : ℚ) - 45)
      push_cast at hA1 hA2 u1 u2 w1 w2
      refine ⟨?_, ?_, ?_, ?_⟩ <;> qify <;> linarith
    refine ⟨?_, ?_, ?_, hcol, ?_⟩
    · rw [← hp]
      unfold projUpdate
      dsimp only
      norm_num
    · rw [← hp]
      dsimp only
      rw [show ⌊(30:ℚ)/2⌋ = 15 from by with_unfolding_all decide]
      norm_num
    · rw [← hp]
      dsimp only
      rw [show ⌊(45:ℚ)/2⌋ = 22 from by with_unfolding_all decide]
      push_cast
      ring
    · intro rest roll
      have hgh : g'.health = h0 := by rw [← hg]
      unfold projHitEnemies
      rw [if_pos hcol]
      dsimp only
      rw [if_neg (show ¬ (g'.health - 10 ≤ 0) by
        rw [hgh]; intro hcon; linarith)]
  · rw [boss_fire_step (floorWorld fy)
        ⟨⟨((xb : Int) : ℚ), ((fy : Int) : ℚ) - 210, 180, 210, 0, 0, ogB⟩,
         EnemyType.boss, hb, mhb, 4/5, dmb, dB, itB, cdB, true,
         some Pattern.projectile, tB⟩
        qx qy rB rfl rfl hcdB rfl hfire] at hstepB
    dsimp only at hstepB
    rw [floor_step_snap fy
        ⟨((xb : Int) : ℚ), ((fy : Int) : ℚ) - 210, 180, 210, 0, 0, ogB⟩
        (by show (0:ℚ) < 180; norm_num)
        (by show (0:ℚ) < 0 + 1/2; norm_num)
        (by show ((fy : Int) : ℚ) - 210 + (0 + 1/2) < ((fy : Int) : ℚ); linarith)
        (by show ((fy : Int) : ℚ)
              < ((fy : Int) : ℚ) - 210 + (0 + 1/2) + 210; linarith)
        (by show ((fy : Int) : ℚ) - 640
              ≤ ((fy : Int) : ℚ) - 210 + (0 + 1/2); linarith)] at hstepB
    dsimp only at hstepB
    injection hstepB with hgB hplB
    injection hplB with hpB hnilB
    have hcolB : colliderect (projRect (projUpdate pb)) (enemyRect b')
        = true := by
      rw [← hpB, ← hgB]
      unfold bossShot projUpdate projRect enemyRect mkRect colliderect
      dsimp only
      rw [show ⌊(180:ℚ)/2⌋ = 90 from by with_unfolding_all decide,
          show ⌊(210:ℚ)/2⌋ = 105 from by with_unfolding_all decide,
          show ((90 : Int) : ℚ) = 90 from by norm_num,
          show ((105 : Int) : ℚ) = 105 from by norm_num,
          show pyTrunc ((10:ℚ) * 2) = 20 from by with_unfolding_all decide,
          show pyTrunc (180:ℚ) = 180 from by with_unfolding_all decide,
          show pyTrunc (210:ℚ) = 210 from by with_unfolding_all decide,
          decide_eq_true_eq]
      obtain ⟨hvx1, hvx2⟩ := abs_le.mp
        (aim_component_bound (qx - ((xb : Int) : ℚ)) rB.dist hsx)
      obtain ⟨hvy1, hvy2⟩ := abs_le.mp
        (aim_component_bound (qy - (((fy : Int) : ℚ) - 210)) rB.dist hsy)
      obtain ⟨u1, u2⟩ := pyTrunc_bounds (((xb : Int) : ℚ) + 90
        + (qx - ((xb : Int) : ℚ)) / max 1 rB.dist * 6 - 10)
      obtain ⟨v1, v2⟩ := pyTrunc_bounds (((fy : Int) : ℚ) - 210 + 105
        + (qy - (((fy : Int) : ℚ) - 210)) / max 1 rB.dist * 6 - 10)
      obtain ⟨w1, w2⟩ := pyTrunc_bounds (((xb : Int) : ℚ) + 0)
      obtain ⟨z1, z2⟩ := pyTrunc_bounds (((fy : Int) : ℚ) - 210)
      refine ⟨?_, ?_, ?_, ?_⟩ <;> qify <;> linarith
    refine ⟨?_, ?_, ?_, hcolB, ?_⟩
    · rw [← hpB]
      unfold bossShot projUpdate
      dsimp only
      norm_num
    · rw [← hpB]
      unfold bossShot
      dsimp only
      rw [show ⌊(180:ℚ)/2⌋ = 90 from by with_unfolding_all decide]
      norm_num
    · rw [← hpB]
      unfold bossShot
      dsimp only
      rw [show ⌊(210:ℚ)/2⌋ = 105 from by with_unfolding_all decide]
      push_cast
      ring
    · intro rest roll
      have hgh2 : b'.health = hb := by rw [← hgB]
      unfold projHitEnemies
      rw [if_pos hcolB]
      dsimp only
      rw [if_neg (show ¬ (b'.health - 10 ≤ 0) by
        rw [hgh2]; intro hcon; linarith)]

set_option maxRecDepth 1000000 in
set_option maxHeartbeats 1000000 in
/-- Witness for `projectile_self_hit`: a concrete golem firing frame (golem
at the chunk origin, player 100 px to the right) and a concrete boss firing
frame (pattern timer 91, cooldown 30, sqrt value 318); both updated
projectiles still overlap their shooters. -/
theorem projectile_self_hit_witness :
    ((0 : Int) ≤ 0 ∧ |((0 : Int) : ℚ) - 100| < 200)
    ∧ colliderect
        (projRect (projUpdate ⟨15, -23, 5, 0, ProjType.ice, 60, 10⟩))
        (enemyRect ⟨⟨7/20, -45, 30, 45, 7/20, 0, true⟩, EnemyType.ice_golem,
          40, 40, 7/10, 15, 1, 119, 0, false, none, 0⟩) = true
    ∧ colliderect
        (projRect (projUpdate ⟨90, -105, 300/53, 105/53, ProjType.boss_fire,
          60, 10⟩))
        (enemyRect ⟨⟨0, -210, 180, 210, 0, 0, true⟩, EnemyType.boss,
          200, 200, 4/5, 25, 1, 0, 29, true, some Pattern.projectile, 90⟩)
        = true := by
  have hG : enemyUpdate (floorWorld 0)
      ⟨⟨((0 : Int) : ℚ), ((0 : Int) : ℚ) - 45, 30, 45, 0, 0, true⟩,
       EnemyType.ice_golem, 40, 40, 7/10, 15, 1, 0, 0, false, none, 0⟩
      100 0 ⟨Pattern.jump, false, 0⟩
      = (⟨⟨7/20, -45, 30, 45, 7/20, 0, true⟩, EnemyType.ice_golem,
          40, 40, 7/10, 15, 1, 119, 0, false, none, 0⟩,
         [⟨15, -23, 5, 0, ProjType.ice, 60, 10⟩]) := by
    with_unfolding_all decide
  have hB : enemyUpdate (floorWorld 0)
      ⟨⟨((0 : Int) : ℚ), ((0 : Int) : ℚ) - 210, 180, 210, 0, 0, true⟩,
       EnemyType.boss, 200, 200, 4/5, 25, 1, 0, 30, true,
       some Pattern.projectile, 91⟩
      300 (-105) ⟨Pattern.jump, false, 318⟩
      = (⟨⟨0, -210, 180, 210, 0, 0, true⟩, EnemyType.boss, 200, 200, 4/5,
          25, 1, 0, 29, true, some Pattern.projectile, 90⟩,
         [⟨90, -105, 300/53, 105/53, ProjType.boss_fire, 60, 10⟩]) := by
    with_unfolding_all decide
  refine ⟨⟨le_refl 0, by with_unfolding_all decide⟩, ?_, ?_⟩
  · exact (projectile_self_hit 0 0 0 100 0 300 (-105) 40 40 15 200 200 25
      1 0 0 0 1 0 30 91 false true true none
      ⟨Pattern.jump, false, 0⟩ ⟨Pattern.jump, false, 318⟩
      ⟨⟨7/20, -45, 30, 45, 7/20, 0, true⟩, EnemyType.ice_golem,
        40, 40, 7/10, 15, 1, 119, 0, false, none, 0⟩
      ⟨⟨0, -210, 180, 210, 0, 0, true⟩, EnemyType.boss, 200, 200, 4/5, 25,
        1, 0, 29, true, some Pattern.projectile, 90⟩
      ⟨15, -23, 5, 0, ProjType.ice, 60, 10⟩
      ⟨90, -105, 300/53, 105/53, ProjType.boss_fire, 60, 10⟩
      (by with_unfolding_all decide) (by decide) (by norm_num)
      (by decide) (by decide) (by norm_num)
      (by with_unfolding_all decide) (by with_unfolding_all decide)
      hG hB).1.2.2.2.1
  · exact (projectile_self_hit 0 0 0 100 0 300 (-105) 40 40 15 200 200 25
      1 0 0 0 1 0 30 91 false true true none
      ⟨Pattern.jump, false, 0⟩ ⟨Pattern.jump, false, 318⟩
      ⟨⟨7/20, -45, 30, 45, 7/20, 0, true⟩, EnemyType.ice_golem,
        40, 40, 7/10, 15, 1, 119, 0, false, none, 0⟩
      ⟨⟨0, -210, 180, 210, 0, 0, true⟩, EnemyType.boss, 200, 200, 4/5, 25,
        1, 0, 29, true, some Pattern.projectile, 90⟩
      ⟨15, -23, 5, 0, ProjType.ice, 60, 10⟩
      ⟨90, -105, 300/53, 105/53, ProjType.boss_fire, 60, 10⟩
      (by with_unfolding_all decide) (by decide) (by norm_num)
      (by decide) (by decide) (by norm_num)
      (by with_unfolding_all decide) (by with_unfolding_all decide)
      hG hB).2.2.2.2.1

end Game31
